import Mathlib

/-!
# Osmium: the dynamic handler (`include/osmium/dynamic_handler.hpp`)

A shallow embedding of the header and a verification of its dispatch rules.

How the C++ is read:

* The five payload classes are only declared in the header and are passed by
  `const` reference; a payload is modelled by the identity of the object the
  reference designates.
* A consumer class `THandler` is described by what the header can see of it:
  its constructor, its members named `node`, `way`, `relation`, `changeset`,
  `area`, `flush` (each with the argument lists it can be called with) and its
  `operator()` overloads.  A member-function body maps the consumer's state to
  its new state and says whether it left by throwing.
* `decltype(expr, void())` in a return type removes the overload exactly when
  `expr` is not a well-formed expression; a call for which no overload is left
  does not compile.  Resolution is therefore a function to `Option`, and a class
  template whose member cannot be resolved has no instantiation (`none`).
* Every run of consumer code leaves an `Event` in a trace: a completed
  construction, a destruction, or the entry into a member function.
* `std::unique_ptr` may be empty, so `m_impl` is an `Option`; calling through
  an empty pointer has no defined behaviour (`none`).
-/

universe u

namespace osmium

/-- Payload class `osmium::Node` (declared only): the object referred to. -/
structure Node where
  ref : Nat
deriving DecidableEq, Repr

/-- Payload class `osmium::Way` (declared only): the object referred to. -/
structure Way where
  ref : Nat
deriving DecidableEq, Repr

/-- Payload class `osmium::Relation` (declared only): the object referred to. -/
structure Relation where
  ref : Nat
deriving DecidableEq, Repr

/-- Payload class `osmium::Area` (declared only): the object referred to. -/
structure Area where
  ref : Nat
deriving DecidableEq, Repr

/-- Payload class `osmium::Changeset` (declared only): the object referred to. -/
structure Changeset where
  ref : Nat
deriving DecidableEq, Repr

namespace handler

/-- The five `_name_` arguments `HANDLER_DISPATCH1` is expanded with, in the
order of the expansions. -/
inductive Category
| node
| way
| relation
| changeset
| area
deriving DecidableEq, Repr

/-- The `_type_` argument that goes with each `_name_`. -/
@[reducible] def Category.type : Category → Type
| .node => Node
| .way => Way
| .relation => Relation
| .changeset => Changeset
| .area => Area

/-- The argument list a member function was entered with. -/
inductive Arg
| node (o : Node)
| way (o : Way)
| relation (o : Relation)
| changeset (o : Changeset)
| area (o : Area)
| none
deriving DecidableEq, Repr

/-- The payload of category `c` as an argument list. -/
def Category.arg : (c : Category) → c.type → Arg
| .node, o => Arg.node o
| .way, o => Arg.way o
| .relation, o => Arg.relation o
| .changeset, o => Arg.changeset o
| .area, o => Arg.area o

/-- The member functions of a consumer that the header can call. -/
inductive Member
| named (c : Category)
| flush
| call
deriving DecidableEq, Repr

/-- What consumer code was seen to do: `constructed` when a constructor
completed, `destroyed` when a destructor ran, `entered` when a member function
was called (`Member.call` is `operator()`).  `cls` is the consumer class. -/
inductive Event
| constructed (cls : String)
| destroyed (cls : String)
| entered (cls : String) (m : Member) (a : Arg)
deriving DecidableEq, Repr

/-- The result of running a piece of code on a state: the state afterwards,
the consumer code that ran, and the exception that left it, if any. -/
structure Outcome (β : Type u) (ε : Type) where
  after : β
  trace : List Event
  thrown : Option ε

/-- A member name of a consumer class, as declared (one function, an overload
set, or a template): for each argument list the header may pass it, the body
the call runs when the call expression is well formed, `none` when it is not.
`withArg c` is for one payload of class `c.type`, `noArg` for no argument. -/
structure Method (σ ε : Type) where
  withArg : (c : Category) → Option (σ → c.type → σ × Option ε)
  noArg : Option (σ → σ × Option ε)

/-- A member declared with one parameter `const osmium::_type_&`: it can be
called with a payload of that class and with nothing else. -/
def Method.unary (c : Category) (body : σ → c.type → σ × Option ε) : Method σ ε where
  withArg := fun c0 => if h : c = c0 then some (h ▸ body) else none
  noArg := none

/-- A member declared without parameters. -/
def Method.nullary (body : σ → σ × Option ε) : Method σ ε where
  withArg := fun _ => none
  noArg := some body

/-- A consumer class `THandler` as the header sees it.  `α` is the type of the
constructor arguments, `σ` of the object's state, `ε` of exceptions. -/
structure THandler (α σ ε : Type) where
  name : String
  ctor : α → Except ε σ
  node : Option (Method σ ε) := none
  way : Option (Method σ ε) := none
  relation : Option (Method σ ε) := none
  changeset : Option (Method σ ε) := none
  area : Option (Method σ ε) := none
  flush : Option (Method σ ε) := none
  call_node : Option (σ → Node → σ × Option ε) := none
  call_way : Option (σ → Way → σ × Option ε) := none
  call_relation : Option (σ → Relation → σ × Option ε) := none
  call_changeset : Option (σ → Changeset → σ × Option ε) := none
  call_area : Option (σ → Area → σ × Option ε) := none
  call_void : Option (σ → σ × Option ε) := none

/-- The member named `_name_`, if the class has one. -/
def THandler.named (T : THandler α σ ε) : Category → Option (Method σ ε)
| .node => T.node
| .way => T.way
| .relation => T.relation
| .changeset => T.changeset
| .area => T.area

/-- The `operator()` overload taking a payload of class `c.type`, if any. -/
def THandler.call (T : THandler α σ ε) : (c : Category) → Option (σ → c.type → σ × Option ε)
| .node => T.call_node
| .way => T.call_way
| .relation => T.call_relation
| .changeset => T.call_changeset
| .area => T.call_area

/-- `HANDLER_DISPATCH1`, first template (third parameter `int`):
`handler._name_(object);`, present when that expression is well formed. -/
def HANDLER_DISPATCH1.int (c : Category) (T : THandler α σ ε) :
    Option (σ → c.type → Outcome σ ε) :=
  match (T.named c).bind (fun m => m.withArg c) with
  | some body => some fun handler object =>
      ⟨(body handler object).1, [Event.entered T.name (Member.named c) (c.arg object)],
        (body handler object).2⟩
  | none => none

/-- `HANDLER_DISPATCH1`, second template (third parameter `long`):
`handler(object);`, present when that expression is well formed. -/
def HANDLER_DISPATCH1.long (c : Category) (T : THandler α σ ε) :
    Option (σ → c.type → Outcome σ ε) :=
  match T.call c with
  | some body => some fun handler object =>
      ⟨(body handler object).1, [Event.entered T.name Member.call (c.arg object)],
        (body handler object).2⟩
  | none => none

/-- The function the call `_name__dispatch(m_handler, object, 0)` resolves to:
`0` is an `int`, so the first template is the better match whenever it is
present; with neither template present the call does not compile. -/
def HANDLER_DISPATCH1 (c : Category) (T : THandler α σ ε) :
    Option (σ → c.type → Outcome σ ε) :=
  match HANDLER_DISPATCH1.int c T with
  | some f => some f
  | none => HANDLER_DISPATCH1.long c T

/-- Expansion `HANDLER_DISPATCH1(node, Node)`. -/
def node_dispatch (T : THandler α σ ε) : Option (σ → Node → Outcome σ ε) :=
  HANDLER_DISPATCH1 Category.node T

/-- Expansion `HANDLER_DISPATCH1(way, Way)`. -/
def way_dispatch (T : THandler α σ ε) : Option (σ → Way → Outcome σ ε) :=
  HANDLER_DISPATCH1 Category.way T

/-- Expansion `HANDLER_DISPATCH1(relation, Relation)`. -/
def relation_dispatch (T : THandler α σ ε) : Option (σ → Relation → Outcome σ ε) :=
  HANDLER_DISPATCH1 Category.relation T

/-- Expansion `HANDLER_DISPATCH1(changeset, Changeset)`. -/
def changeset_dispatch (T : THandler α σ ε) : Option (σ → Changeset → Outcome σ ε) :=
  HANDLER_DISPATCH1 Category.changeset T

/-- Expansion `HANDLER_DISPATCH1(area, Area)`. -/
def area_dispatch (T : THandler α σ ε) : Option (σ → Area → Outcome σ ε) :=
  HANDLER_DISPATCH1 Category.area T

/-- First `flush_dispatch` template (second parameter `int`):
`handler.flush();`, present when that expression is well formed. -/
def flush_dispatch.int (T : THandler α σ ε) : Option (σ → Outcome σ ε) :=
  match T.flush.bind Method.noArg with
  | some body => some fun handler =>
      ⟨(body handler).1, [Event.entered T.name Member.flush Arg.none], (body handler).2⟩
  | none => none

/-- Second `flush_dispatch` template (second parameter `long`): the body is
empty and nothing in its declaration depends on the consumer class. -/
def flush_dispatch.long (_T : THandler α σ ε) : Option (σ → Outcome σ ε) :=
  some fun handler => ⟨handler, [], none⟩

/-- The function the call `flush_dispatch(m_handler, 0)` resolves to. -/
def flush_dispatch (T : THandler α σ ε) : Option (σ → Outcome σ ε) :=
  match flush_dispatch.int T with
  | some f => some f
  | none => flush_dispatch.long T

/-- The class `HandlerWrapper<THandler>`: its six overriders, each with the
`_dispatch` call in its body resolved, and the class of its `m_handler`. -/
structure HandlerWrapper (σ ε : Type) where
  cls : String
  node : σ → Node → Outcome σ ε
  way : σ → Way → Outcome σ ε
  relation : σ → Relation → Outcome σ ε
  area : σ → Area → Outcome σ ε
  changeset : σ → Changeset → Outcome σ ε
  flush : σ → Outcome σ ε

/-- Instantiating `HandlerWrapper<THandler>`.  The overriders are virtual, so
all six bodies are compiled with the class; the class exists only if each of
the six `_dispatch` calls resolves. -/
def HandlerWrapper.instantiate (T : THandler α σ ε) : Option (HandlerWrapper σ ε) :=
  match node_dispatch T, way_dispatch T, relation_dispatch T, area_dispatch T,
    changeset_dispatch T, flush_dispatch T with
  | some n, some w, some r, some a, some c, some f => some ⟨T.name, n, w, r, a, c, f⟩
  | _, _, _, _, _, _ => none

/-- The overrider of `HandlerWrapper<THandler>` for category `c`. -/
def HandlerWrapper.method (W : HandlerWrapper σ ε) : (c : Category) → σ → c.type → Outcome σ ε
| .node => W.node
| .way => W.way
| .relation => W.relation
| .changeset => W.changeset
| .area => W.area

/-- An object reached through a `HandlerWrapperBase*`: either a
`HandlerWrapperBase` itself, or a `HandlerWrapper<THandler>` holding its
`m_handler`. -/
inductive HandlerWrapperBase (ε : Type) : Type 1
| base : HandlerWrapperBase ε
| wrapper (σ : Type) (W : HandlerWrapper σ ε) (m_handler : σ) : HandlerWrapperBase ε

/-- Running an overrider on `m_handler` and putting the new state back. -/
def HandlerWrapperBase.run (σ : Type) (W : HandlerWrapper σ ε) (r : Outcome σ ε) :
    Outcome (HandlerWrapperBase ε) ε :=
  ⟨HandlerWrapperBase.wrapper σ W r.after, r.trace, r.thrown⟩

/-- Virtual `node`: empty in the base class, `node_dispatch(m_handler, node, 0)`
in the wrapper. -/
def HandlerWrapperBase.node : HandlerWrapperBase ε → Node → Outcome (HandlerWrapperBase ε) ε
| .base, _ => ⟨HandlerWrapperBase.base, [], none⟩
| .wrapper σ W h, o => HandlerWrapperBase.run σ W (W.node h o)

/-- Virtual `way`. -/
def HandlerWrapperBase.way : HandlerWrapperBase ε → Way → Outcome (HandlerWrapperBase ε) ε
| .base, _ => ⟨HandlerWrapperBase.base, [], none⟩
| .wrapper σ W h, o => HandlerWrapperBase.run σ W (W.way h o)

/-- Virtual `relation`. -/
def HandlerWrapperBase.relation :
    HandlerWrapperBase ε → Relation → Outcome (HandlerWrapperBase ε) ε
| .base, _ => ⟨HandlerWrapperBase.base, [], none⟩
| .wrapper σ W h, o => HandlerWrapperBase.run σ W (W.relation h o)

/-- Virtual `area`. -/
def HandlerWrapperBase.area : HandlerWrapperBase ε → Area → Outcome (HandlerWrapperBase ε) ε
| .base, _ => ⟨HandlerWrapperBase.base, [], none⟩
| .wrapper σ W h, o => HandlerWrapperBase.run σ W (W.area h o)

/-- Virtual `changeset`. -/
def HandlerWrapperBase.changeset :
    HandlerWrapperBase ε → Changeset → Outcome (HandlerWrapperBase ε) ε
| .base, _ => ⟨HandlerWrapperBase.base, [], none⟩
| .wrapper σ W h, o => HandlerWrapperBase.run σ W (W.changeset h o)

/-- Virtual `flush`. -/
def HandlerWrapperBase.flush : HandlerWrapperBase ε → Outcome (HandlerWrapperBase ε) ε
| .base => ⟨HandlerWrapperBase.base, [], none⟩
| .wrapper σ W h => HandlerWrapperBase.run σ W (W.flush h)

/-- Virtual destructor: empty in the base class; destroying a wrapper destroys
its `m_handler`. -/
def HandlerWrapperBase.destroy : HandlerWrapperBase ε → List Event
| .base => []
| .wrapper _ W _ => [Event.destroyed W.cls]

/-- What assigning to a `std::unique_ptr` does with the object owned so far:
nothing when the pointer was empty, otherwise `delete`. -/
def impl_ptr.reset : Option (HandlerWrapperBase ε) → List Event
| none => []
| some p => p.destroy

/-- The class `DynamicHandler`: its one data member. -/
structure DynamicHandler (ε : Type) where
  m_impl : Option (HandlerWrapperBase ε)

/-- The constructor: `m_impl(impl_ptr(new HandlerWrapperBase))`. -/
def DynamicHandler.ctor : DynamicHandler ε :=
  ⟨some HandlerWrapperBase.base⟩

/-- Member `set<THandler>(args...)`:
`m_impl = impl_ptr(new HandlerWrapper<THandler>(args...))`.
The right-hand side is evaluated first: the wrapper's constructor initialises
`m_handler` from `args`; if that throws, the assignment is never reached.
Otherwise the assignment stores the new pointer and deletes the old object.
`none` when `HandlerWrapper<THandler>` has no instantiation. -/
def DynamicHandler.set (d : DynamicHandler ε) (T : THandler α σ ε) (args : α) :
    Option (Outcome (DynamicHandler ε) ε) :=
  match HandlerWrapper.instantiate T with
  | none => none
  | some W =>
    match T.ctor args with
    | .error e => some ⟨d, [], some e⟩
    | .ok h =>
      some ⟨⟨some (HandlerWrapperBase.wrapper σ W h)⟩,
        Event.constructed T.name :: impl_ptr.reset d.m_impl, none⟩

/-- A call through `m_impl->`: no defined behaviour on an empty pointer. -/
def DynamicHandler.through (d : DynamicHandler ε)
    (f : HandlerWrapperBase ε → Outcome (HandlerWrapperBase ε) ε) :
    Option (Outcome (DynamicHandler ε) ε) :=
  match d.m_impl with
  | none => none
  | some p => some ⟨⟨some (f p).after⟩, (f p).trace, (f p).thrown⟩

/-- Member `node`: `m_impl->node(node)`. -/
def DynamicHandler.node (d : DynamicHandler ε) (node : Node) :
    Option (Outcome (DynamicHandler ε) ε) :=
  d.through fun p => p.node node

/-- Member `way`: `m_impl->way(way)`. -/
def DynamicHandler.way (d : DynamicHandler ε) (way : Way) :
    Option (Outcome (DynamicHandler ε) ε) :=
  d.through fun p => p.way way

/-- Member `relation`: `m_impl->relation(relation)`. -/
def DynamicHandler.relation (d : DynamicHandler ε) (relation : Relation) :
    Option (Outcome (DynamicHandler ε) ε) :=
  d.through fun p => p.relation relation

/-- Member `area`: `m_impl->area(area)`. -/
def DynamicHandler.area (d : DynamicHandler ε) (area : Area) :
    Option (Outcome (DynamicHandler ε) ε) :=
  d.through fun p => p.area area

/-- Member `changeset`: `m_impl->changeset(changeset)`. -/
def DynamicHandler.changeset (d : DynamicHandler ε) (changeset : Changeset) :
    Option (Outcome (DynamicHandler ε) ε) :=
  d.through fun p => p.changeset changeset

/-- Member `flush`: `m_impl->flush()`. -/
def DynamicHandler.flush (d : DynamicHandler ε) : Option (Outcome (DynamicHandler ε) ε) :=
  d.through fun p => p.flush

/-- The state of a handler whose `m_impl` owns a `HandlerWrapper<THandler>`
with the given `m_handler`. -/
def DynamicHandler.bound (W : HandlerWrapper σ ε) (m_handler : σ) : DynamicHandler ε :=
  ⟨some (HandlerWrapperBase.wrapper σ W m_handler)⟩

/-- One call on the public interface of `DynamicHandler`, as a caller writes it. -/
inductive Call
| node (o : Node)
| way (o : Way)
| relation (o : Relation)
| area (o : Area)
| changeset (o : Changeset)
| flush
deriving DecidableEq, Repr

/-- The call that passes a payload of category `c`. -/
def Category.call : (c : Category) → c.type → Call
| .node, o => Call.node o
| .way, o => Call.way o
| .relation, o => Call.relation o
| .changeset, o => Call.changeset o
| .area, o => Call.area o

/-- Performing one call on a handler. -/
def DynamicHandler.apply (d : DynamicHandler ε) : Call → Option (Outcome (DynamicHandler ε) ε)
| .node o => d.node o
| .way o => d.way o
| .relation o => d.relation o
| .area o => d.area o
| .changeset o => d.changeset o
| .flush => d.flush

/-- A caller performing calls one after the other on the same handler,
`d.node(a); d.way(b); ...`: an exception leaves the sequence at the call that
threw, the remaining calls are not made. -/
def DynamicHandler.feed (d : DynamicHandler ε) : List Call → Option (Outcome (DynamicHandler ε) ε)
| [] => some ⟨d, [], none⟩
| k :: ks =>
  match d.apply k with
  | none => none
  | some r =>
    match r.thrown with
    | some e => some ⟨r.after, r.trace, some e⟩
    | none =>
      match r.after.feed ks with
      | none => none
      | some r2 => some ⟨r2.after, r.trace ++ r2.trace, r2.thrown⟩

namespace examples

/-- A handler-style consumer: a counter with a named member for each category
and a named `flush`; the constructor takes the initial count. -/
def Counting : THandler Nat Nat String where
  name := "Counting"
  ctor := fun n => Except.ok n
  node := some (Method.unary Category.node fun s _ => (s + 1, none))
  way := some (Method.unary Category.way fun s _ => (s + 1, none))
  relation := some (Method.unary Category.relation fun s _ => (s + 1, none))
  changeset := some (Method.unary Category.changeset fun s _ => (s + 1, none))
  area := some (Method.unary Category.area fun s _ => (s + 1, none))
  flush := some (Method.nullary fun s => (s + 1, none))

/-- A consumer with both forms for every category: the named members add 1,
the `operator()` overloads add 100. -/
def Both : THandler Unit Nat String where
  name := "Both"
  ctor := fun _ => Except.ok 0
  node := some (Method.unary Category.node fun s _ => (s + 1, none))
  way := some (Method.unary Category.way fun s _ => (s + 1, none))
  relation := some (Method.unary Category.relation fun s _ => (s + 1, none))
  changeset := some (Method.unary Category.changeset fun s _ => (s + 1, none))
  area := some (Method.unary Category.area fun s _ => (s + 1, none))
  flush := some (Method.nullary fun s => (s + 1, none))
  call_node := some fun s _ => (s + 100, none)
  call_way := some fun s _ => (s + 100, none)
  call_relation := some fun s _ => (s + 100, none)
  call_changeset := some fun s _ => (s + 100, none)
  call_area := some fun s _ => (s + 100, none)
  call_void := some fun s => (s + 100, none)

/-- A consumer with named members `node` and `way` and nothing else. -/
def NodeWay : THandler Unit Nat String where
  name := "NodeWay"
  ctor := fun _ => Except.ok 0
  node := some (Method.unary Category.node fun s _ => (s + 1, none))
  way := some (Method.unary Category.way fun s _ => (s + 1, none))

/-- A visitor-style consumer: an `operator()` overload for every payload class
and one without argument, no named member; it records the objects it is given. -/
def Visitor : THandler Unit (List Nat) String where
  name := "Visitor"
  ctor := fun _ => Except.ok []
  call_node := some fun s o => (s ++ [o.ref], none)
  call_way := some fun s o => (s ++ [o.ref], none)
  call_relation := some fun s o => (s ++ [o.ref], none)
  call_changeset := some fun s o => (s ++ [o.ref], none)
  call_area := some fun s o => (s ++ [o.ref], none)
  call_void := some fun s => (s ++ [0], none)

/-- A consumer with no member function at all. -/
def Empty : THandler Unit Unit String where
  name := "Empty"
  ctor := fun _ => Except.ok ()

/-- A counter like `Counting` whose constructor always throws. -/
def Failing : THandler Unit Nat String where
  name := "Failing"
  ctor := fun _ => Except.error "bad"
  node := some (Method.unary Category.node fun s _ => (s + 1, none))
  way := some (Method.unary Category.way fun s _ => (s + 1, none))
  relation := some (Method.unary Category.relation fun s _ => (s + 1, none))
  changeset := some (Method.unary Category.changeset fun s _ => (s + 1, none))
  area := some (Method.unary Category.area fun s _ => (s + 1, none))

/-- A counter whose `node` counts and then throws; `flush` throws too. -/
def Throwing : THandler Unit Nat String where
  name := "Throwing"
  ctor := fun _ => Except.ok 0
  node := some (Method.unary Category.node fun s _ => (s + 1, some "boom"))
  way := some (Method.unary Category.way fun s _ => (s + 1, none))
  relation := some (Method.unary Category.relation fun s _ => (s + 1, none))
  changeset := some (Method.unary Category.changeset fun s _ => (s + 1, none))
  area := some (Method.unary Category.area fun s _ => (s + 1, none))
  flush := some (Method.nullary fun s => (s, some "flushed"))

/-- A consumer whose member named `node` is declared with a `Way` parameter,
and which is callable with every payload class. -/
def Mismatched : THandler Unit Nat String where
  name := "Mismatched"
  ctor := fun _ => Except.ok 0
  node := some (Method.unary Category.way fun s _ => (s + 1, none))
  call_node := some fun s _ => (s + 100, none)
  call_way := some fun s _ => (s + 100, none)
  call_relation := some fun s _ => (s + 100, none)
  call_changeset := some fun s _ => (s + 100, none)
  call_area := some fun s _ => (s + 100, none)

/-- A consumer whose member named `node` is declared with a `Way` parameter,
with proper named members for the other categories and no `operator()`. -/
def MismatchedOnly : THandler Unit Nat String where
  name := "MismatchedOnly"
  ctor := fun _ => Except.ok 0
  node := some (Method.unary Category.way fun s _ => (s + 1, none))
  way := some (Method.unary Category.way fun s _ => (s + 1, none))
  relation := some (Method.unary Category.relation fun s _ => (s + 1, none))
  changeset := some (Method.unary Category.changeset fun s _ => (s + 1, none))
  area := some (Method.unary Category.area fun s _ => (s + 1, none))

end examples

/-! ## Callers, live consumers, and the specification's view of a call sequence -/

/-- One operation of a caller on a handler: one of the six calls, or
`set<THandler>(args...)` for some consumer class and constructor arguments. -/
inductive Op (ε : Type) : Type 1
| call (k : Call) : Op ε
| set {α σ : Type} (T : THandler α σ ε) (args : α) : Op ε

/-- Whether the operation compiles: a call always does, `set<THandler>` does
when `HandlerWrapper<THandler>` can be instantiated. -/
def Op.compiles : Op ε → Bool
| .call _ => true
| .set T _ => (HandlerWrapper.instantiate T).isSome

/-- Performing one operation on a handler. -/
def DynamicHandler.step (d : DynamicHandler ε) : Op ε → Option (Outcome (DynamicHandler ε) ε)
| .call k => d.apply k
| .set T args => d.set T args

/-- What a caller has seen after a sequence of operations: the handler, the
consumer code that ran, and the exceptions it caught, all in order. -/
structure Run (ε : Type) where
  handler : DynamicHandler ε
  trace : List Event
  caught : List ε

/-- An exception, if one was thrown, as the list of exceptions caught. -/
def caughtOf : Option ε → List ε
| none => []
| some e => [e]

/-- A caller performing operations one after the other on the same handler,
each in a `try` block of its own: what an operation throws is caught and the
next operation is performed all the same. -/
def DynamicHandler.perform (d : DynamicHandler ε) : List (Op ε) → Option (Run ε)
| [] => some ⟨d, [], []⟩
| op :: ops =>
  match d.step op with
  | none => none
  | some r =>
    match r.after.perform ops with
    | none => none
    | some p => some ⟨p.handler, r.trace ++ p.trace, caughtOf r.thrown ++ p.caught⟩

/-- The consumer objects alive after an event, given those alive before it
(objects are told apart by their class). -/
def Event.update (alive : List String) : Event → List String
| .constructed cls => cls :: alive
| .destroyed cls => alive.erase cls
| .entered _ _ _ => alive

/-- The consumer objects alive after a trace, given those alive before it. -/
def live (alive : List String) (tr : List Event) : List String :=
  tr.foldl Event.update alive

/-- The specification's "category the consumer handles", for a payload
category: the class has a named handler taking the payload, or is callable
with it. -/
def THandler.handlesCategory (T : THandler α σ ε) (c : Category) : Bool :=
  ((T.named c).bind (fun m => m.withArg c)).isSome || (T.call c).isSome

/-- The specification's "category the consumer handles", for a call; for
`flush()` the specification counts the named handler `flush` and the
callable-with-no-argument form alike. -/
def THandler.handles (T : THandler α σ ε) : Call → Bool
| .node _ => T.handlesCategory Category.node
| .way _ => T.handlesCategory Category.way
| .relation _ => T.handlesCategory Category.relation
| .area _ => T.handlesCategory Category.area
| .changeset _ => T.handlesCategory Category.changeset
| .flush => (T.flush.bind Method.noArg).isSome || T.call_void.isSome

/-- The form the specification's priority order selects for a payload
category: the named handler if there is one taking the payload, else the
callable form. -/
def THandler.form (T : THandler α σ ε) (c : Category) : Member :=
  if ((T.named c).bind (fun m => m.withArg c)).isSome then Member.named c else Member.call

/-- The form the specification's priority order selects for `flush()`: the
named handler `flush` if there is one, else the callable form. -/
def THandler.formFlush (T : THandler α σ ε) : Member :=
  if (T.flush.bind Method.noArg).isSome then Member.flush else Member.call

/-- The specification's "consumer-handler invocation" for a call the consumer
handles: the selected form entered with the payload of the call. -/
def THandler.invocation (T : THandler α σ ε) : Call → Event
| .node o => Event.entered T.name (T.form Category.node) (Arg.node o)
| .way o => Event.entered T.name (T.form Category.way) (Arg.way o)
| .relation o => Event.entered T.name (T.form Category.relation) (Arg.relation o)
| .area o => Event.entered T.name (T.form Category.area) (Arg.area o)
| .changeset o => Event.entered T.name (T.form Category.changeset) (Arg.changeset o)
| .flush => Event.entered T.name T.formFlush Arg.none

/-- The specification's "input sequence restricted to the categories the
consumer handles", as the invocations it stands for. -/
def THandler.restricted (T : THandler α σ ε) (ks : List Call) : List Event :=
  (ks.filter T.handles).map T.invocation

/-- The calls that have a member of the consumer to go to under the header's
own rules: a payload call when the class has a named member taking the payload
or an `operator()` overload for it, `flush()` only when the class has a named
`flush` (the second `flush_dispatch` is empty). -/
def THandler.reaches (T : THandler α σ ε) : Call → Bool
| .node _ => T.handlesCategory Category.node
| .way _ => T.handlesCategory Category.way
| .relation _ => T.handlesCategory Category.relation
| .area _ => T.handlesCategory Category.area
| .changeset _ => T.handlesCategory Category.changeset
| .flush => (T.flush.bind Method.noArg).isSome

/-- The call sequence restricted to the calls that reach a member of the
consumer, as the invocations they stand for. -/
def THandler.delivered (T : THandler α σ ε) (ks : List Call) : List Event :=
  (ks.filter T.reaches).map T.invocation

/-- The member body a payload of category `c` goes to when the consumer's
members are called directly: the named member if it takes the payload, else
the `operator()` overload. -/
def THandler.body (T : THandler α σ ε) (c : Category) :
    Option (σ → c.type → σ × Option ε) :=
  match (T.named c).bind (fun m => m.withArg c) with
  | some f => some f
  | none => T.call c

/-- Calling the consumer's member for category `c` directly on a consumer in
state `s`: the state it leaves and what it throws; nothing when there is no
member to call. -/
def THandler.effectOn (T : THandler α σ ε) (c : Category) (s : σ) (o : c.type) :
    σ × Option ε :=
  match T.body c with
  | some f => f s o
  | none => (s, none)

/-- Calling the consumer's own member for a call directly on a consumer in
state `s`; for `flush()` the member is the named `flush`. -/
def THandler.effect (T : THandler α σ ε) (s : σ) : Call → σ × Option ε
| .node o => T.effectOn Category.node s o
| .way o => T.effectOn Category.way s o
| .relation o => T.effectOn Category.relation s o
| .area o => T.effectOn Category.area s o
| .changeset o => T.effectOn Category.changeset s o
| .flush =>
  match T.flush.bind Method.noArg with
  | some f => f s
  | none => (s, none)

/-- The state of a consumer after its members were called directly for each
call of a sequence, one after the other, whatever they threw. -/
def THandler.stateAfter (T : THandler α σ ε) : σ → List Call → σ
| s, [] => s
| s, k :: ks => T.stateAfter (T.effect s k).1 ks

/-- The exceptions thrown, in order, when the consumer's members are called
directly for each call of a sequence. -/
def THandler.failures (T : THandler α σ ε) : σ → List Call → List ε
| _, [] => []
| s, k :: ks => caughtOf (T.effect s k).2 ++ T.failures (T.effect s k).1 ks

/-! ## Resolution, instantiation and binding: basic facts -/

section facts

variable {α σ ε : Type}

theorem Method.withArg_unary (c : Category) (f : σ → c.type → σ × Option ε) :
    (Method.unary c f : Method σ ε).withArg c = some f := by
  simp [Method.unary]

theorem HANDLER_DISPATCH1_named {T : THandler α σ ε} {c : Category}
    {f : σ → c.type → σ × Option ε} (hn : (T.named c).bind (fun m => m.withArg c) = some f) :
    HANDLER_DISPATCH1 c T = some fun handler object =>
      ⟨(f handler object).1, [Event.entered T.name (Member.named c) (c.arg object)],
        (f handler object).2⟩ := by
  simp [HANDLER_DISPATCH1, HANDLER_DISPATCH1.int, hn]

theorem HANDLER_DISPATCH1_call {T : THandler α σ ε} {c : Category}
    {g : σ → c.type → σ × Option ε} (hn : (T.named c).bind (fun m => m.withArg c) = none)
    (hc : T.call c = some g) :
    HANDLER_DISPATCH1 c T = some fun handler object =>
      ⟨(g handler object).1, [Event.entered T.name Member.call (c.arg object)],
        (g handler object).2⟩ := by
  simp [HANDLER_DISPATCH1, HANDLER_DISPATCH1.int, HANDLER_DISPATCH1.long, hn, hc]

theorem HANDLER_DISPATCH1_none {T : THandler α σ ε} {c : Category}
    (hn : (T.named c).bind (fun m => m.withArg c) = none) (hc : T.call c = none) :
    HANDLER_DISPATCH1 c T = none := by
  simp [HANDLER_DISPATCH1, HANDLER_DISPATCH1.int, HANDLER_DISPATCH1.long, hn, hc]

theorem flush_dispatch_named {T : THandler α σ ε} {f : σ → σ × Option ε}
    (hn : T.flush.bind Method.noArg = some f) :
    flush_dispatch T = some fun handler =>
      ⟨(f handler).1, [Event.entered T.name Member.flush Arg.none], (f handler).2⟩ := by
  simp [flush_dispatch, flush_dispatch.int, hn]

theorem flush_dispatch_default {T : THandler α σ ε}
    (hn : T.flush.bind Method.noArg = none) :
    flush_dispatch T = some fun handler => ⟨handler, [], none⟩ := by
  simp [flush_dispatch, flush_dispatch.int, flush_dispatch.long, hn]

theorem HandlerWrapper.instantiate_eq_none {T : THandler α σ ε} {c : Category}
    (h : HANDLER_DISPATCH1 c T = none) : HandlerWrapper.instantiate T = none := by
  unfold HandlerWrapper.instantiate
  split
  · next hn hw hr ha hc _ =>
      cases c
      · simp [node_dispatch, h] at hn
      · simp [way_dispatch, h] at hw
      · simp [relation_dispatch, h] at hr
      · simp [changeset_dispatch, h] at hc
      · simp [area_dispatch, h] at ha
  · rfl

theorem HandlerWrapper.instantiate_method {T : THandler α σ ε} {W : HandlerWrapper σ ε}
    (hW : HandlerWrapper.instantiate T = some W) (c : Category) :
    HANDLER_DISPATCH1 c T = some (W.method c) := by
  unfold HandlerWrapper.instantiate at hW
  split at hW
  · next hn hw hr ha hc _ =>
      cases hW
      cases c
      · exact hn
      · exact hw
      · exact hr
      · exact hc
      · exact ha
  · cases hW

theorem HandlerWrapper.instantiate_flush {T : THandler α σ ε} {W : HandlerWrapper σ ε}
    (hW : HandlerWrapper.instantiate T = some W) : flush_dispatch T = some W.flush := by
  unfold HandlerWrapper.instantiate at hW
  split at hW
  · next _ _ _ _ _ hf =>
      cases hW
      exact hf
  · cases hW

theorem HandlerWrapper.instantiate_cls {T : THandler α σ ε} {W : HandlerWrapper σ ε}
    (hW : HandlerWrapper.instantiate T = some W) : W.cls = T.name := by
  unfold HandlerWrapper.instantiate at hW
  split at hW
  · cases hW
    rfl
  · cases hW

theorem DynamicHandler.apply_bound (W : HandlerWrapper σ ε) (h : σ) (c : Category)
    (o : c.type) :
    (DynamicHandler.bound W h).apply (c.call o) =
      some ⟨DynamicHandler.bound W (W.method c h o).after, (W.method c h o).trace,
        (W.method c h o).thrown⟩ := by
  cases c <;> rfl

theorem DynamicHandler.flush_bound (W : HandlerWrapper σ ε) (h : σ) :
    (DynamicHandler.bound W h).apply Call.flush =
      some ⟨DynamicHandler.bound W (W.flush h).after, (W.flush h).trace,
        (W.flush h).thrown⟩ := rfl

theorem DynamicHandler.apply_named {T : THandler α σ ε} {W : HandlerWrapper σ ε}
    (hW : HandlerWrapper.instantiate T = some W) {c : Category}
    {f : σ → c.type → σ × Option ε} (hn : (T.named c).bind (fun m => m.withArg c) = some f)
    (h : σ) (o : c.type) :
    (DynamicHandler.bound W h).apply (c.call o) =
      some ⟨DynamicHandler.bound W (f h o).1,
        [Event.entered T.name (Member.named c) (c.arg o)], (f h o).2⟩ := by
  have hd := HandlerWrapper.instantiate_method hW c
  rw [HANDLER_DISPATCH1_named hn] at hd
  have happ := DynamicHandler.apply_bound W h c o
  rw [← Option.some.inj hd] at happ
  exact happ

theorem DynamicHandler.apply_call {T : THandler α σ ε} {W : HandlerWrapper σ ε}
    (hW : HandlerWrapper.instantiate T = some W) {c : Category}
    {g : σ → c.type → σ × Option ε} (hn : (T.named c).bind (fun m => m.withArg c) = none)
    (hc : T.call c = some g) (h : σ) (o : c.type) :
    (DynamicHandler.bound W h).apply (c.call o) =
      some ⟨DynamicHandler.bound W (g h o).1,
        [Event.entered T.name Member.call (c.arg o)], (g h o).2⟩ := by
  have hd := HandlerWrapper.instantiate_method hW c
  rw [HANDLER_DISPATCH1_call hn hc] at hd
  have happ := DynamicHandler.apply_bound W h c o
  rw [← Option.some.inj hd] at happ
  exact happ

theorem DynamicHandler.flush_named {T : THandler α σ ε} {W : HandlerWrapper σ ε}
    (hW : HandlerWrapper.instantiate T = some W) {f : σ → σ × Option ε}
    (hn : T.flush.bind Method.noArg = some f) (h : σ) :
    (DynamicHandler.bound W h).apply Call.flush =
      some ⟨DynamicHandler.bound W (f h).1,
        [Event.entered T.name Member.flush Arg.none], (f h).2⟩ := by
  have hd := HandlerWrapper.instantiate_flush hW
  rw [flush_dispatch_named hn] at hd
  have happ := DynamicHandler.flush_bound W h
  rw [← Option.some.inj hd] at happ
  exact happ

theorem DynamicHandler.flush_default {T : THandler α σ ε} {W : HandlerWrapper σ ε}
    (hW : HandlerWrapper.instantiate T = some W)
    (hn : T.flush.bind Method.noArg = none) (h : σ) :
    (DynamicHandler.bound W h).apply Call.flush =
      some ⟨DynamicHandler.bound W h, [], none⟩ := by
  have hd := HandlerWrapper.instantiate_flush hW
  rw [flush_dispatch_default hn] at hd
  have happ := DynamicHandler.flush_bound W h
  rw [← Option.some.inj hd] at happ
  exact happ

theorem DynamicHandler.apply_ctor (k : Call) :
    (DynamicHandler.ctor : DynamicHandler ε).apply k = some ⟨DynamicHandler.ctor, [], none⟩ := by
  cases k <;> rfl

theorem DynamicHandler.set_ok (d : DynamicHandler ε) {T : THandler α σ ε}
    {W : HandlerWrapper σ ε} (hW : HandlerWrapper.instantiate T = some W) {args : α} {h : σ}
    (hk : T.ctor args = Except.ok h) :
    d.set T args = some ⟨DynamicHandler.bound W h,
      Event.constructed T.name :: impl_ptr.reset d.m_impl, none⟩ := by
  simp [DynamicHandler.set, hW, hk, DynamicHandler.bound]

theorem DynamicHandler.set_error (d : DynamicHandler ε) {T : THandler α σ ε}
    {W : HandlerWrapper σ ε} (hW : HandlerWrapper.instantiate T = some W) {args : α} {e : ε}
    (hk : T.ctor args = Except.error e) :
    d.set T args = some ⟨d, [], some e⟩ := by
  simp [DynamicHandler.set, hW, hk]

theorem DynamicHandler.set_none (d : DynamicHandler ε) {T : THandler α σ ε}
    (hW : HandlerWrapper.instantiate T = none) (args : α) : d.set T args = none := by
  simp [DynamicHandler.set, hW]

/-- Every dispatch on a bound handler is defined and leaves the handler bound
to the same wrapper class; the consumer code it ran belongs to that class. -/
theorem DynamicHandler.apply_bound_shape {T : THandler α σ ε} {W : HandlerWrapper σ ε}
    (hW : HandlerWrapper.instantiate T = some W) (h : σ) (k : Call) :
    ∃ h2 tr th, (DynamicHandler.bound W h).apply k = some ⟨DynamicHandler.bound W h2, tr, th⟩ ∧
      ∀ e ∈ tr, ∃ m a, e = Event.entered T.name m a := by
  have key : ∀ (c : Category) (o : c.type), ∃ h2 tr th,
      (DynamicHandler.bound W h).apply (c.call o) =
        some ⟨DynamicHandler.bound W h2, tr, th⟩ ∧
      ∀ e ∈ tr, ∃ m a, e = Event.entered T.name m a := by
    intro c o
    cases hn : (T.named c).bind (fun m => m.withArg c) with
    | some f =>
      exact ⟨_, _, _, DynamicHandler.apply_named hW hn h o, by simp⟩
    | none =>
      cases hc : T.call c with
      | some g => exact ⟨_, _, _, DynamicHandler.apply_call hW hn hc h o, by simp⟩
      | none =>
        have h1 := HandlerWrapper.instantiate_eq_none (HANDLER_DISPATCH1_none hn hc)
        rw [hW] at h1
        cases h1
  cases k with
  | node o => exact key Category.node o
  | way o => exact key Category.way o
  | relation o => exact key Category.relation o
  | area o => exact key Category.area o
  | changeset o => exact key Category.changeset o
  | flush =>
    cases hn : T.flush.bind Method.noArg with
    | some f => exact ⟨_, _, _, DynamicHandler.flush_named hW hn h, by simp⟩
    | none => exact ⟨_, _, _, DynamicHandler.flush_default hW hn h, by simp⟩

/-- A sequence of calls on a bound handler is defined, leaves the handler
bound to the same wrapper class, and runs only code of that class. -/
theorem DynamicHandler.feed_bound_shape {T : THandler α σ ε} {W : HandlerWrapper σ ε}
    (hW : HandlerWrapper.instantiate T = some W) (ks : List Call) (h : σ) :
    ∃ h2 tr th, (DynamicHandler.bound W h).feed ks = some ⟨DynamicHandler.bound W h2, tr, th⟩ ∧
      ∀ e ∈ tr, ∃ m a, e = Event.entered T.name m a := by
  induction ks generalizing h with
  | nil => exact ⟨h, [], none, rfl, by simp⟩
  | cons k ks ih =>
    obtain ⟨h2, tr, th, hk, htr⟩ := DynamicHandler.apply_bound_shape hW h k
    cases th with
    | some e =>
      exact ⟨h2, tr, some e, by simp [DynamicHandler.feed, hk], htr⟩
    | none =>
      obtain ⟨h3, tr3, th3, hk3, htr3⟩ := ih h2
      refine ⟨h3, tr ++ tr3, th3, by simp [DynamicHandler.feed, hk, hk3], ?_⟩
      intro e he
      rcases List.mem_append.mp he with he | he
      · exact htr e he
      · exact htr3 e he

end facts

/-! ## Callers: basic facts -/

section callers

variable {α σ ε : Type}

theorem DynamicHandler.apply_defined (w : HandlerWrapperBase ε) (k : Call) :
    ∃ r, (⟨some w⟩ : DynamicHandler ε).apply k = some r ∧ ∃ w2, r.after.m_impl = some w2 := by
  cases k <;> exact ⟨_, rfl, _, rfl⟩

theorem DynamicHandler.step_defined (w : HandlerWrapperBase ε) (op : Op ε)
    (hop : op.compiles = true) :
    ∃ r, (⟨some w⟩ : DynamicHandler ε).step op = some r ∧ ∃ w2, r.after.m_impl = some w2 := by
  cases op with
  | call k => exact DynamicHandler.apply_defined w k
  | set T args =>
    cases hW : HandlerWrapper.instantiate T with
    | none => simp [Op.compiles, hW] at hop
    | some W =>
      cases hk : T.ctor args with
      | error e =>
        exact ⟨_, DynamicHandler.set_error _ hW hk, w, rfl⟩
      | ok h =>
        exact ⟨_, DynamicHandler.set_ok _ hW hk, _, rfl⟩

theorem DynamicHandler.perform_defined (ops : List (Op ε)) (w : HandlerWrapperBase ε)
    (hops : ∀ op ∈ ops, op.compiles = true) :
    ∃ p, (⟨some w⟩ : DynamicHandler ε).perform ops = some p ∧
      ∃ w2, p.handler.m_impl = some w2 := by
  induction ops generalizing w with
  | nil => exact ⟨_, rfl, w, rfl⟩
  | cons op ops ih =>
    obtain ⟨r, hr, w1, hw1⟩ :=
      DynamicHandler.step_defined w op (hops op (List.mem_cons_self _ _))
    have hra : r.after = ⟨some w1⟩ := by
      cases hd : r.after with
      | mk m =>
        rw [hd] at hw1
        simp at hw1
        rw [hw1]
    obtain ⟨p, hp, w2, hw2⟩ := ih w1 (fun o ho => hops o (List.mem_cons_of_mem _ ho))
    refine ⟨⟨p.handler, r.trace ++ p.trace, caughtOf r.thrown ++ p.caught⟩, ?_, w2, hw2⟩
    simp [DynamicHandler.perform, hr, hra, hp]

theorem DynamicHandler.perform_append (d : DynamicHandler ε) (ops1 ops2 : List (Op ε)) :
    d.perform (ops1 ++ ops2) =
      (d.perform ops1).bind fun p =>
        (p.handler.perform ops2).map fun q =>
          ⟨q.handler, p.trace ++ q.trace, p.caught ++ q.caught⟩ := by
  induction ops1 generalizing d with
  | nil =>
    cases h : d.perform ops2 <;> simp [DynamicHandler.perform, h]
  | cons op ops ih =>
    cases hs : d.step op with
    | none => simp [DynamicHandler.perform, hs]
    | some r =>
      cases h1 : r.after.perform ops with
      | none => simp [DynamicHandler.perform, hs, ih, h1]
      | some p =>
        cases h2 : p.handler.perform ops2 with
        | none => simp [DynamicHandler.perform, hs, ih, h1, h2]
        | some q => simp [DynamicHandler.perform, hs, ih, h1, h2, List.append_assoc]

theorem DynamicHandler.feed_append (d : DynamicHandler ε) (ks1 ks2 : List Call) :
    d.feed (ks1 ++ ks2) =
      (d.feed ks1).bind fun r1 =>
        match r1.thrown with
        | some e => some ⟨r1.after, r1.trace, some e⟩
        | none =>
          (r1.after.feed ks2).map fun r2 => ⟨r2.after, r1.trace ++ r2.trace, r2.thrown⟩ := by
  induction ks1 generalizing d with
  | nil =>
    cases h : d.feed ks2 <;> simp [DynamicHandler.feed, h]
  | cons k ks ih =>
    cases hs : d.apply k with
    | none => simp [DynamicHandler.feed, hs]
    | some r =>
      cases ht : r.thrown with
      | some e => simp [DynamicHandler.feed, hs, ht]
      | none =>
        cases h1 : r.after.feed ks with
        | none => simp [DynamicHandler.feed, hs, ht, ih, h1]
        | some r1 =>
          cases ht1 : r1.thrown with
          | some e => simp [DynamicHandler.feed, hs, ht, ih, h1, ht1]
          | none =>
            cases h2 : r1.after.feed ks2 with
            | none => simp [DynamicHandler.feed, hs, ht, ih, h1, ht1, h2]
            | some r2 =>
              simp [DynamicHandler.feed, hs, ht, ih, h1, ht1, h2, List.append_assoc]

/-- One call on a bound handler is calling the consumer's member directly:
the handler stays bound to the same wrapper class, the consumer's state and
the exception are those the member gives, and the consumer code run is the
invocation for the call when it reaches a member; when it reaches none, no
code runs, the state is kept and nothing is thrown. -/
theorem DynamicHandler.apply_bound_frame {T : THandler α σ ε} {W : HandlerWrapper σ ε}
    (hW : HandlerWrapper.instantiate T = some W) (h : σ) (k : Call) :
    (DynamicHandler.bound W h).apply k =
        some ⟨DynamicHandler.bound W (T.effect h k).1, T.delivered [k], (T.effect h k).2⟩ ∧
      (T.delivered [k] = [] → T.effect h k = (h, none)) := by
  have key : ∀ (c : Category) (o : c.type), T.reaches (c.call o) = T.handlesCategory c →
      T.invocation (c.call o) = Event.entered T.name (T.form c) (c.arg o) →
      T.effect h (c.call o) = T.effectOn c h o →
      (DynamicHandler.bound W h).apply (c.call o) =
          some ⟨DynamicHandler.bound W (T.effect h (c.call o)).1, T.delivered [c.call o],
            (T.effect h (c.call o)).2⟩ ∧
        (T.delivered [c.call o] = [] → T.effect h (c.call o) = (h, none)) := by
    intro c o hh hi he
    cases hn : (T.named c).bind (fun m => m.withArg c) with
    | some f =>
      have hr : T.delivered [c.call o] =
          [Event.entered T.name (Member.named c) (c.arg o)] := by
        simp [THandler.delivered, hh, hi, THandler.handlesCategory, THandler.form, hn]
      have hf : T.effect h (c.call o) = f h o := by
        simp [he, THandler.effectOn, THandler.body, hn]
      rw [hr, hf]
      exact ⟨DynamicHandler.apply_named hW hn h o, by simp⟩
    | none =>
      cases hc : T.call c with
      | some g =>
        have hr : T.delivered [c.call o] =
            [Event.entered T.name Member.call (c.arg o)] := by
          simp [THandler.delivered, hh, hi, THandler.handlesCategory, THandler.form, hn, hc]
        have hf : T.effect h (c.call o) = g h o := by
          simp [he, THandler.effectOn, THandler.body, hn, hc]
        rw [hr, hf]
        exact ⟨DynamicHandler.apply_call hW hn hc h o, by simp⟩
      | none =>
        have h1 := HandlerWrapper.instantiate_eq_none (HANDLER_DISPATCH1_none hn hc)
        rw [hW] at h1
        cases h1
  cases k with
  | node o => exact key Category.node o rfl rfl rfl
  | way o => exact key Category.way o rfl rfl rfl
  | relation o => exact key Category.relation o rfl rfl rfl
  | area o => exact key Category.area o rfl rfl rfl
  | changeset o => exact key Category.changeset o rfl rfl rfl
  | flush =>
    cases hn : T.flush.bind Method.noArg with
    | some f =>
      have hr : T.delivered [Call.flush] =
          [Event.entered T.name Member.flush Arg.none] := by
        simp [THandler.delivered, THandler.reaches, THandler.invocation, THandler.formFlush,
          hn]
      have hf : T.effect h Call.flush = f h := by
        simp [THandler.effect, hn]
      rw [hr, hf]
      exact ⟨DynamicHandler.flush_named hW hn h, by simp⟩
    | none =>
      have hr : T.delivered [Call.flush] = [] := by
        simp [THandler.delivered, THandler.reaches, hn]
      have hf : T.effect h Call.flush = (h, none) := by
        simp [THandler.effect, hn]
      rw [hr, hf]
      exact ⟨DynamicHandler.flush_default hW hn h, fun _ => rfl⟩

theorem THandler.delivered_cons (T : THandler α σ ε) (k : Call) (ks : List Call) :
    T.delivered (k :: ks) = T.delivered [k] ++ T.delivered ks := by
  cases hk : T.reaches k <;> simp [THandler.delivered, List.filter, hk]

theorem THandler.delivered_append (T : THandler α σ ε) (ks1 ks2 : List Call) :
    T.delivered (ks1 ++ ks2) = T.delivered ks1 ++ T.delivered ks2 := by
  simp [THandler.delivered]

theorem THandler.stateAfter_append (T : THandler α σ ε) (s : σ) (ks1 ks2 : List Call) :
    T.stateAfter s (ks1 ++ ks2) = T.stateAfter (T.stateAfter s ks1) ks2 := by
  induction ks1 generalizing s with
  | nil => rfl
  | cons k ks ih => simp [THandler.stateAfter, ih]

theorem THandler.failures_append (T : THandler α σ ε) (s : σ) (ks1 ks2 : List Call) :
    T.failures s (ks1 ++ ks2) = T.failures s ks1 ++ T.failures (T.stateAfter s ks1) ks2 := by
  induction ks1 generalizing s with
  | nil => rfl
  | cons k ks ih => simp [THandler.stateAfter, THandler.failures, ih]

/-- A caller that makes every call of a sequence on a bound handler, catching
what is thrown: the outcome is that of calling the consumer's members
directly, one after the other. -/
theorem DynamicHandler.perform_calls_bound {T : THandler α σ ε} {W : HandlerWrapper σ ε}
    (hW : HandlerWrapper.instantiate T = some W) (ks : List Call) (s : σ) :
    (DynamicHandler.bound W s).perform (ks.map Op.call) =
      some ⟨DynamicHandler.bound W (T.stateAfter s ks), T.delivered ks, T.failures s ks⟩ := by
  induction ks generalizing s with
  | nil => rfl
  | cons k ks ih =>
    have hk := (DynamicHandler.apply_bound_frame hW s k).1
    rw [THandler.delivered_cons T k ks]
    simp [DynamicHandler.perform, DynamicHandler.step, hk, ih, THandler.stateAfter,
      THandler.failures]

/-- A caller that stops at the first exception, on a bound handler: when
calling the consumer's members directly throws nothing, the outcome is that of
calling them directly, one after the other. -/
theorem DynamicHandler.feed_calls_bound {T : THandler α σ ε} {W : HandlerWrapper σ ε}
    (hW : HandlerWrapper.instantiate T = some W) (ks : List Call) (s : σ)
    (hnone : T.failures s ks = []) :
    (DynamicHandler.bound W s).feed ks =
      some ⟨DynamicHandler.bound W (T.stateAfter s ks), T.delivered ks, none⟩ := by
  induction ks generalizing s with
  | nil => rfl
  | cons k ks ih =>
    have hk := (DynamicHandler.apply_bound_frame hW s k).1
    simp only [THandler.failures, List.append_eq_nil] at hnone
    have hth : (T.effect s k).2 = none := by
      cases hq : (T.effect s k).2 with
      | none => rfl
      | some e =>
        rw [hq] at hnone
        simp [caughtOf] at hnone
    rw [hth] at hk
    rw [THandler.delivered_cons T k ks]
    simp [DynamicHandler.feed, hk, ih _ hnone.2, THandler.stateAfter]

/-- A caller that stops at the first exception, on a bound handler: the
consumer code run is an initial part of what the whole sequence stands for. -/
theorem DynamicHandler.feed_calls_prefix {T : THandler α σ ε} {W : HandlerWrapper σ ε}
    (hW : HandlerWrapper.instantiate T = some W) (ks : List Call) (s : σ) :
    ∃ r, (DynamicHandler.bound W s).feed ks = some r ∧ r.trace <+: T.delivered ks := by
  induction ks generalizing s with
  | nil => exact ⟨_, rfl, by simp [THandler.delivered]⟩
  | cons k ks ih =>
    have hk := (DynamicHandler.apply_bound_frame hW s k).1
    rw [THandler.delivered_cons T k ks]
    cases hth : (T.effect s k).2 with
    | some e =>
      rw [hth] at hk
      exact ⟨⟨DynamicHandler.bound W (T.effect s k).1, T.delivered [k], some e⟩,
        by simp [DynamicHandler.feed, hk], List.prefix_append _ _⟩
    | none =>
      rw [hth] at hk
      obtain ⟨r, hr, hpre⟩ := ih (T.effect s k).1
      exact ⟨⟨r.after, T.delivered [k] ++ r.trace, r.thrown⟩,
        by simp [DynamicHandler.feed, hk, hr], (List.prefix_append_right_inj _).mpr hpre⟩

end callers

/-! ## Resolution of a dispatch on a bound handler -/

section resolution

variable {α σ ε : Type}

/-- Claim C1: when the consumer class has both a member named after category
`c` that takes `c`'s payload and an `operator()` overload for that payload,
then after `set<T>(args...)` the call for `c` enters the named member once, with
the payload passed in, leaves the consumer in the state the named member
produced, and `operator()` is not entered. -/
theorem named_member_preferred (T : THandler α σ ε) (W : HandlerWrapper σ ε)
    (hW : HandlerWrapper.instantiate T = some W) (args : α) (h : σ)
    (hk : T.ctor args = Except.ok h) (d : DynamicHandler ε) (c : Category)
    (m : Method σ ε) (f g : σ → c.type → σ × Option ε) (hn : T.named c = some m)
    (hm : m.withArg c = some f) (_hc : T.call c = some g) (o : c.type) :
    d.set T args = some ⟨DynamicHandler.bound W h,
        Event.constructed T.name :: impl_ptr.reset d.m_impl, none⟩ ∧
      (DynamicHandler.bound W h).apply (c.call o) =
        some ⟨DynamicHandler.bound W (f h o).1,
          [Event.entered T.name (Member.named c) (c.arg o)], (f h o).2⟩ ∧
      ∀ r, (DynamicHandler.bound W h).apply (c.call o) = some r →
        ∀ cls a, Event.entered cls Member.call a ∉ r.trace := by
  have happ := DynamicHandler.apply_named hW
    (show (T.named c).bind (fun m => m.withArg c) = some f by simp [hn, hm]) h o
  refine ⟨DynamicHandler.set_ok d hW hk, happ, ?_⟩
  intro r hr cls a
  rw [happ] at hr
  cases hr
  simp

/-- Claim C1, on the class `Both` (named members add 1, `operator()` adds 100):
a node sent to a freshly bound handler leaves the count at 1. -/
theorem named_member_preferred_witness :
    ∃ W, HandlerWrapper.instantiate examples.Both = some W ∧
      (DynamicHandler.bound W 0).apply (Call.node ⟨7⟩) =
        some ⟨DynamicHandler.bound W 1,
          [Event.entered "Both" (Member.named Category.node) (Arg.node ⟨7⟩)], none⟩ :=
  ⟨_, rfl, (named_member_preferred examples.Both _ rfl () 0 rfl DynamicHandler.ctor
    Category.node _ _ _ rfl rfl rfl ⟨7⟩).2.1⟩

/-- Claim C4: when the consumer class has, for category `c`, only a named
member taking `c`'s payload (no `operator()` overload for it), the call for `c`
with payload `o` enters exactly that member, once, with `o`, and no other
member; likewise `flush()` enters a named `flush` exactly once. -/
theorem named_only_entered_once (T : THandler α σ ε) (W : HandlerWrapper σ ε)
    (hW : HandlerWrapper.instantiate T = some W) (args : α) (h : σ)
    (hk : T.ctor args = Except.ok h) (d : DynamicHandler ε) :
    d.set T args = some ⟨DynamicHandler.bound W h,
        Event.constructed T.name :: impl_ptr.reset d.m_impl, none⟩ ∧
      (∀ (c : Category) (m : Method σ ε) (f : σ → c.type → σ × Option ε),
        T.named c = some m → m.withArg c = some f → T.call c = none → ∀ o : c.type,
          (DynamicHandler.bound W h).apply (c.call o) =
            some ⟨DynamicHandler.bound W (f h o).1,
              [Event.entered T.name (Member.named c) (c.arg o)], (f h o).2⟩) ∧
      (∀ (m : Method σ ε) (f : σ → σ × Option ε),
        T.flush = some m → m.noArg = some f → T.call_void = none →
          (DynamicHandler.bound W h).apply Call.flush =
            some ⟨DynamicHandler.bound W (f h).1,
              [Event.entered T.name Member.flush Arg.none], (f h).2⟩) := by
  refine ⟨DynamicHandler.set_ok d hW hk, ?_, ?_⟩
  · intro c m f hn hm _ o
    exact DynamicHandler.apply_named hW (by simp [hn, hm]) h o
  · intro m f hn hm _
    exact DynamicHandler.flush_named hW (by simp [hn, hm]) h

/-- Claim C4, on the class `Counting` constructed with count 5: a way and a
flush each enter their own named member once. -/
theorem named_only_entered_once_witness :
    ∃ W, HandlerWrapper.instantiate examples.Counting = some W ∧
      (DynamicHandler.bound W 5).apply (Call.way ⟨3⟩) =
        some ⟨DynamicHandler.bound W 6,
          [Event.entered "Counting" (Member.named Category.way) (Arg.way ⟨3⟩)], none⟩ ∧
      (DynamicHandler.bound W 5).apply Call.flush =
        some ⟨DynamicHandler.bound W 6,
          [Event.entered "Counting" Member.flush Arg.none], none⟩ :=
  ⟨_, rfl,
    (named_only_entered_once examples.Counting _ rfl 5 5 rfl DynamicHandler.ctor).2.1
      Category.way _ _ rfl rfl rfl ⟨3⟩,
    (named_only_entered_once examples.Counting _ rfl 5 5 rfl DynamicHandler.ctor).2.2
      _ _ rfl rfl rfl⟩

/-- Claim C5: when the consumer class has no member named after the payload
category `c` but an `operator()` overload taking `c`'s payload, the call for
`c` with payload `o` enters `operator()` exactly once, with `o`. -/
theorem callable_only_entered_once (T : THandler α σ ε) (W : HandlerWrapper σ ε)
    (hW : HandlerWrapper.instantiate T = some W) (args : α) (h : σ)
    (hk : T.ctor args = Except.ok h) (d : DynamicHandler ε) (c : Category)
    (g : σ → c.type → σ × Option ε) (hn : T.named c = none) (hc : T.call c = some g)
    (o : c.type) :
    d.set T args = some ⟨DynamicHandler.bound W h,
        Event.constructed T.name :: impl_ptr.reset d.m_impl, none⟩ ∧
      (DynamicHandler.bound W h).apply (c.call o) =
        some ⟨DynamicHandler.bound W (g h o).1,
          [Event.entered T.name Member.call (c.arg o)], (g h o).2⟩ :=
  ⟨DynamicHandler.set_ok d hW hk, DynamicHandler.apply_call hW (by simp [hn]) hc h o⟩

/-- Claim C5, on the class `Visitor`: a relation is recorded by `operator()`. -/
theorem callable_only_entered_once_witness :
    ∃ W, HandlerWrapper.instantiate examples.Visitor = some W ∧
      (DynamicHandler.bound W []).apply (Call.relation ⟨9⟩) =
        some ⟨DynamicHandler.bound W [9],
          [Event.entered "Visitor" Member.call (Arg.relation ⟨9⟩)], none⟩ :=
  ⟨_, rfl, (callable_only_entered_once examples.Visitor _ rfl () [] rfl DynamicHandler.ctor
    Category.relation _ rfl rfl ⟨9⟩).2⟩

end resolution

/-! ## Categories the consumer does not handle, and `flush` -/

section unhandled

variable {α σ ε : Type}

/-- Claim C2, refuted as stated: the class `NodeWay` (named `node` and `way`
only) cannot be bound, so there is no handler on which one node, one relation
and one flush give one invocation. -/
theorem node_way_only_is_rejected :
    ¬ ∃ r1 r2, (DynamicHandler.ctor : DynamicHandler String).set examples.NodeWay () = some r1 ∧
      r1.after.feed [Call.node ⟨1⟩, Call.relation ⟨2⟩, Call.flush] = some r2 ∧
      r2.trace.length = 1 := by
  rintro ⟨r1, _, h1, _⟩
  have h0 : (DynamicHandler.ctor : DynamicHandler String).set examples.NodeWay () = none := rfl
  rw [h0] at h1
  cases h1

/-- Claim C2 (amended): a consumer class with neither a named member nor an
`operator()` overload for some payload category cannot be bound, whatever the
handler held before; a class that can be bound and has no named `flush` gets
the empty `flush_dispatch`: `flush()` runs no consumer code, leaves the
consumer's state as it was and throws nothing. -/
theorem unhandled_category (T : THandler α σ ε) :
    (∀ c : Category, T.named c = none → T.call c = none →
      ∀ (d : DynamicHandler ε) (args : α), d.set T args = none) ∧
    (∀ W : HandlerWrapper σ ε, HandlerWrapper.instantiate T = some W → T.flush = none →
      ∀ (d : DynamicHandler ε) (args : α) (h : σ), T.ctor args = Except.ok h →
        d.set T args = some ⟨DynamicHandler.bound W h,
            Event.constructed T.name :: impl_ptr.reset d.m_impl, none⟩ ∧
          (DynamicHandler.bound W h).apply Call.flush =
            some ⟨DynamicHandler.bound W h, [], none⟩) := by
  constructor
  · intro c hn hc d args
    exact DynamicHandler.set_none d
      (HandlerWrapper.instantiate_eq_none (HANDLER_DISPATCH1_none (by simp [hn]) hc)) args
  · intro W hW hf d args h hk
    exact ⟨DynamicHandler.set_ok d hW hk, DynamicHandler.flush_default hW (by simp [hf]) h⟩

/-- Claim C2 (amended), on `NodeWay`, which has nothing for relations, and on
`Mismatched`, which can be bound and has no `flush`. -/
theorem unhandled_category_witness :
    (DynamicHandler.ctor : DynamicHandler String).set examples.NodeWay () = none ∧
    ∃ W, HandlerWrapper.instantiate examples.Mismatched = some W ∧
      (DynamicHandler.bound W 0).apply Call.flush =
        some ⟨DynamicHandler.bound W 0, [], none⟩ :=
  ⟨(unhandled_category examples.NodeWay).1 Category.relation rfl rfl DynamicHandler.ctor (),
    _, rfl,
    ((unhandled_category examples.Mismatched).2 _ rfl rfl DynamicHandler.ctor () 0 rfl).2⟩

/-- Claim C3, refuted as stated: the class `Visitor` is callable with every
payload and with no argument; one event of each category followed by `flush()`
enters it five times, not six, and `flush()` leaves what it recorded untouched. -/
theorem visitor_flush_not_called :
    ∃ W, HandlerWrapper.instantiate examples.Visitor = some W ∧
      (DynamicHandler.ctor : DynamicHandler String).set examples.Visitor () =
        some ⟨DynamicHandler.bound W [], [Event.constructed "Visitor"], none⟩ ∧
      (DynamicHandler.bound W []).feed
          [Call.node ⟨1⟩, Call.way ⟨2⟩, Call.relation ⟨3⟩, Call.area ⟨4⟩, Call.changeset ⟨5⟩,
            Call.flush] =
        some ⟨DynamicHandler.bound W [1, 2, 3, 4, 5],
          [Event.entered "Visitor" Member.call (Arg.node ⟨1⟩),
            Event.entered "Visitor" Member.call (Arg.way ⟨2⟩),
            Event.entered "Visitor" Member.call (Arg.relation ⟨3⟩),
            Event.entered "Visitor" Member.call (Arg.area ⟨4⟩),
            Event.entered "Visitor" Member.call (Arg.changeset ⟨5⟩)], none⟩ :=
  ⟨_, rfl, rfl, rfl⟩

/-- Claim C3 (amended): `flush` has the named member as its only form.  For a
class with no named `flush`, callable with no argument or not, `flush()` on the
bound handler runs nothing; so a class handling the five payload categories
through `operator()` alone (none of them throwing), given one event of each
category and then `flush()`, is entered exactly five times, in call order. -/
theorem flush_has_no_callable_form (T : THandler α σ ε) (W : HandlerWrapper σ ε)
    (hW : HandlerWrapper.instantiate T = some W) (args : α) (h : σ)
    (hk : T.ctor args = Except.ok h) (d : DynamicHandler ε) (hf : T.flush = none) :
    d.set T args = some ⟨DynamicHandler.bound W h,
        Event.constructed T.name :: impl_ptr.reset d.m_impl, none⟩ ∧
      (∀ g0 : σ → σ × Option ε, T.call_void = some g0 → ∀ s : σ,
        (DynamicHandler.bound W s).apply Call.flush =
          some ⟨DynamicHandler.bound W s, [], none⟩) ∧
      (∀ g : (c : Category) → σ → c.type → σ × Option ε,
        (∀ c, T.named c = none) → (∀ c, T.call c = some (g c)) →
        (∀ c s o, (g c s o).2 = none) →
        ∀ (n : Node) (w : Way) (r : Relation) (a : Area) (cs : Changeset),
          (DynamicHandler.bound W h).feed
              [Call.node n, Call.way w, Call.relation r, Call.area a, Call.changeset cs,
                Call.flush] =
            some ⟨DynamicHandler.bound W
                (g Category.changeset (g Category.area (g Category.relation
                  (g Category.way (g Category.node h n).1 w).1 r).1 a).1 cs).1,
              [Event.entered T.name Member.call (Arg.node n),
                Event.entered T.name Member.call (Arg.way w),
                Event.entered T.name Member.call (Arg.relation r),
                Event.entered T.name Member.call (Arg.area a),
                Event.entered T.name Member.call (Arg.changeset cs)], none⟩) := by
  have hfl : ∀ s : σ, (DynamicHandler.bound W s).apply Call.flush =
      some ⟨DynamicHandler.bound W s, [], none⟩ :=
    fun s => DynamicHandler.flush_default hW (by simp [hf]) s
  refine ⟨DynamicHandler.set_ok d hW hk, fun _ _ s => hfl s, ?_⟩
  intro g hn hc hg n w r a cs
  have step : ∀ (c : Category) (s : σ) (o : c.type),
      (DynamicHandler.bound W s).apply (c.call o) =
        some ⟨DynamicHandler.bound W (g c s o).1,
          [Event.entered T.name Member.call (c.arg o)], none⟩ := by
    intro c s o
    have := DynamicHandler.apply_call hW (by simp [hn c]) (hc c) s o
    rw [hg c s o] at this
    exact this
  have s1 := step Category.node h n
  have s2 := step Category.way (g Category.node h n).1 w
  have s3 := step Category.relation (g Category.way (g Category.node h n).1 w).1 r
  have s4 := step Category.area
    (g Category.relation (g Category.way (g Category.node h n).1 w).1 r).1 a
  have s5 := step Category.changeset (g Category.area
    (g Category.relation (g Category.way (g Category.node h n).1 w).1 r).1 a).1 cs
  simp only [Category.call, Category.arg] at s1 s2 s3 s4 s5
  simp [DynamicHandler.feed, s1, s2, s3, s4, s5, hfl]

/-- Claim C3 (amended), on the class `Visitor`. -/
theorem flush_has_no_callable_form_witness :
    ∃ W, HandlerWrapper.instantiate examples.Visitor = some W ∧
      (DynamicHandler.bound W [4, 2]).apply Call.flush =
        some ⟨DynamicHandler.bound W [4, 2], [], none⟩ :=
  ⟨_, rfl,
    (flush_has_no_callable_form examples.Visitor _ rfl () [] rfl DynamicHandler.ctor rfl).2.1
      _ rfl [4, 2]⟩

/-- Claim C6, refuted as stated: the class `Empty`, which implements no
category, cannot be bound, so there is no bound handler whose behaviour the
unbound one could be compared with. -/
theorem empty_consumer_is_rejected :
    ¬ ∃ r, (DynamicHandler.ctor : DynamicHandler String).set examples.Empty () = some r := by
  rintro ⟨r, h1⟩
  have h0 : (DynamicHandler.ctor : DynamicHandler String).set examples.Empty () = none := rfl
  rw [h0] at h1
  cases h1

/-- Claim C6 (amended): on a freshly constructed handler every call, and every
sequence of calls, is defined, runs no consumer code, throws nothing and leaves
the handler as constructed; its `flush()` is observed exactly as the `flush()`
of a handler bound to a class without named `flush`; and a class that
implements no payload category cannot be bound. -/
theorem unbound_handler_does_nothing :
    (∀ k : Call, (DynamicHandler.ctor : DynamicHandler ε).apply k =
      some ⟨DynamicHandler.ctor, [], none⟩) ∧
    (∀ ks : List Call, (DynamicHandler.ctor : DynamicHandler ε).feed ks =
      some ⟨DynamicHandler.ctor, [], none⟩) ∧
    (∀ (T : THandler α σ ε) (W : HandlerWrapper σ ε),
      HandlerWrapper.instantiate T = some W → T.flush = none → ∀ h : σ,
        ((DynamicHandler.bound W h).apply Call.flush).map (fun r => (r.trace, r.thrown)) =
          ((DynamicHandler.ctor : DynamicHandler ε).apply Call.flush).map
            (fun r => (r.trace, r.thrown))) ∧
    (∀ T : THandler α σ ε, (∀ c, T.named c = none ∧ T.call c = none) →
      ∀ (d : DynamicHandler ε) (args : α), d.set T args = none) := by
  refine ⟨DynamicHandler.apply_ctor, ?_, ?_, ?_⟩
  · intro ks
    induction ks with
    | nil => rfl
    | cons k ks ih => simp [DynamicHandler.feed, DynamicHandler.apply_ctor, ih]
  · intro T W hW hf h
    rw [DynamicHandler.flush_default hW (by simp [hf]) h, DynamicHandler.apply_ctor]
    rfl
  · intro T hT d args
    exact DynamicHandler.set_none d
      (HandlerWrapper.instantiate_eq_none
        (HANDLER_DISPATCH1_none (c := Category.node) (by simp [(hT Category.node).1])
          (hT Category.node).2)) args

/-- Claim C6 (amended), on `Mismatched` (no named `flush`) and on `Empty`. -/
theorem unbound_handler_does_nothing_witness :
    (∃ W, HandlerWrapper.instantiate examples.Mismatched = some W ∧
      ((DynamicHandler.bound W 3).apply Call.flush).map (fun r => (r.trace, r.thrown)) =
        ((DynamicHandler.ctor : DynamicHandler String).apply Call.flush).map
          (fun r => (r.trace, r.thrown))) ∧
    (DynamicHandler.ctor : DynamicHandler String).set examples.Empty () = none :=
  ⟨⟨_, rfl, (unbound_handler_does_nothing (α := Unit)).2.2.1 examples.Mismatched _ rfl rfl 3⟩,
    (unbound_handler_does_nothing (σ := Unit)).2.2.2 examples.Empty
      (fun c => by cases c <;> exact ⟨rfl, rfl⟩) DynamicHandler.ctor ()⟩

end unhandled

/-! ## Rebinding and failures -/

section binding

variable {α σ ε : Type}

/-- Claim C7: let a handler be bound to `T1`, receive any calls, and then be
bound to `T2` with a constructor that completes.  The second `set` constructs
the `T2` object and destroys the `T1` object, once, and the handler then owns
the new `T2` object in the state its constructor gave it.  From then on, in
whatever state `s` the new object is, a payload call runs the member of `T2`
it resolves to (the named member taking the payload, else `operator()`) on
that object, once, with the payload, and `flush()` runs `T2`'s named `flush`
or nothing; a whole sequence of calls has exactly the outcome of calling the
members of `T2` directly on the new object, and is the outcome a handler bound
to `T2` from any other state gives. -/
theorem rebind_replaces_consumer {α1 σ1 α2 σ2 : Type} (T1 : THandler α1 σ1 ε)
    (W1 : HandlerWrapper σ1 ε) (hW1 : HandlerWrapper.instantiate T1 = some W1)
    (T2 : THandler α2 σ2 ε) (W2 : HandlerWrapper σ2 ε)
    (hW2 : HandlerWrapper.instantiate T2 = some W2)
    (a1 : α1) (h1 : σ1) (hk1 : T1.ctor a1 = Except.ok h1)
    (a2 : α2) (h2 : σ2) (hk2 : T2.ctor a2 = Except.ok h2)
    (d0 : DynamicHandler ε) (ks1 : List Call) :
    (∃ s1 tr1 th1,
      d0.set T1 a1 = some ⟨DynamicHandler.bound W1 h1,
        Event.constructed T1.name :: impl_ptr.reset d0.m_impl, none⟩ ∧
      (DynamicHandler.bound W1 h1).feed ks1 = some ⟨DynamicHandler.bound W1 s1, tr1, th1⟩ ∧
      (DynamicHandler.bound W1 s1).set T2 a2 =
        some ⟨DynamicHandler.bound W2 h2,
          [Event.constructed T2.name, Event.destroyed T1.name], none⟩) ∧
    List.count (Event.destroyed T1.name)
      [Event.constructed T2.name, Event.destroyed T1.name] = 1 ∧
    (∀ (s : σ2) (c : Category) (o : c.type),
      (∀ f : σ2 → c.type → σ2 × Option ε,
        (T2.named c).bind (fun m => m.withArg c) = some f →
          (DynamicHandler.bound W2 s).apply (c.call o) =
            some ⟨DynamicHandler.bound W2 (f s o).1,
              [Event.entered T2.name (Member.named c) (c.arg o)], (f s o).2⟩) ∧
      (∀ g : σ2 → c.type → σ2 × Option ε,
        (T2.named c).bind (fun m => m.withArg c) = none → T2.call c = some g →
          (DynamicHandler.bound W2 s).apply (c.call o) =
            some ⟨DynamicHandler.bound W2 (g s o).1,
              [Event.entered T2.name Member.call (c.arg o)], (g s o).2⟩)) ∧
    (∀ s : σ2,
      (∀ f : σ2 → σ2 × Option ε, T2.flush.bind Method.noArg = some f →
        (DynamicHandler.bound W2 s).apply Call.flush =
          some ⟨DynamicHandler.bound W2 (f s).1,
            [Event.entered T2.name Member.flush Arg.none], (f s).2⟩) ∧
      (T2.flush.bind Method.noArg = none →
        (DynamicHandler.bound W2 s).apply Call.flush =
          some ⟨DynamicHandler.bound W2 s, [], none⟩)) ∧
    (∀ ks : List Call, (DynamicHandler.bound W2 h2).perform (ks.map Op.call) =
      some ⟨DynamicHandler.bound W2 (T2.stateAfter h2 ks), T2.delivered ks,
        T2.failures h2 ks⟩) ∧
    (∀ ks : List Call, ∃ r, (DynamicHandler.bound W2 h2).feed ks = some r ∧
      (∀ e ∈ r.trace, ∃ m a, e = Event.entered T2.name m a) ∧
      ∀ d : DynamicHandler ε, (d.set T2 a2).bind (fun x => x.after.feed ks) = some r) := by
  obtain ⟨s1, tr1, th1, hfeed, _⟩ := DynamicHandler.feed_bound_shape hW1 ks1 h1
  refine ⟨⟨s1, tr1, th1, DynamicHandler.set_ok d0 hW1 hk1, hfeed, ?_⟩, ?_, ?_, ?_, ?_, ?_⟩
  · rw [DynamicHandler.set_ok _ hW2 hk2]
    simp [DynamicHandler.bound, impl_ptr.reset, HandlerWrapperBase.destroy,
      HandlerWrapper.instantiate_cls hW1]
  · simp
  · intro s c o
    exact ⟨fun f hn => DynamicHandler.apply_named hW2 hn s o,
      fun g hn hc => DynamicHandler.apply_call hW2 hn hc s o⟩
  · intro s
    exact ⟨fun f hn => DynamicHandler.flush_named hW2 hn s,
      fun hn => DynamicHandler.flush_default hW2 hn s⟩
  · intro ks
    exact DynamicHandler.perform_calls_bound hW2 ks h2
  · intro ks
    obtain ⟨s2, tr2, th2, hfeed2, htr2⟩ := DynamicHandler.feed_bound_shape hW2 ks h2
    refine ⟨_, hfeed2, htr2, ?_⟩
    intro d
    rw [DynamicHandler.set_ok d hW2 hk2]
    exact hfeed2

/-- Claim C7, on `Counting` (constructed with 5, then sent a node) replaced by
`Both`, whose constructor starts the count at 0: a node sent afterwards enters
`Both::node` on the new object and leaves its count at 1, and a node, a flush
and a way leave it at 3. -/
theorem rebind_replaces_consumer_witness :
    ∃ W1 W2, HandlerWrapper.instantiate examples.Counting = some W1 ∧
      HandlerWrapper.instantiate examples.Both = some W2 ∧
      (∃ s1 tr1 th1,
        (DynamicHandler.ctor : DynamicHandler String).set examples.Counting 5 =
          some ⟨DynamicHandler.bound W1 5, [Event.constructed "Counting"], none⟩ ∧
        (DynamicHandler.bound W1 5).feed [Call.node ⟨1⟩] =
          some ⟨DynamicHandler.bound W1 s1, tr1, th1⟩ ∧
        (DynamicHandler.bound W1 s1).set examples.Both () =
          some ⟨DynamicHandler.bound W2 0,
            [Event.constructed "Both", Event.destroyed "Counting"], none⟩) ∧
      (DynamicHandler.bound W2 0).apply (Call.node ⟨2⟩) =
        some ⟨DynamicHandler.bound W2 1,
          [Event.entered "Both" (Member.named Category.node) (Arg.node ⟨2⟩)], none⟩ ∧
      (DynamicHandler.bound W2 0).perform
          ([Call.node ⟨2⟩, Call.flush, Call.way ⟨3⟩].map Op.call) =
        some ⟨DynamicHandler.bound W2 3,
          [Event.entered "Both" (Member.named Category.node) (Arg.node ⟨2⟩),
            Event.entered "Both" Member.flush Arg.none,
            Event.entered "Both" (Member.named Category.way) (Arg.way ⟨3⟩)], []⟩ :=
  ⟨_, _, rfl, rfl,
    (rebind_replaces_consumer examples.Counting _ rfl examples.Both _ rfl 5 5 rfl () 0 rfl
      (DynamicHandler.ctor : DynamicHandler String) [Call.node ⟨1⟩]).1,
    ((rebind_replaces_consumer examples.Counting _ rfl examples.Both _ rfl 5 5 rfl () 0 rfl
      (DynamicHandler.ctor : DynamicHandler String) [Call.node ⟨1⟩]).2.2.1
        0 Category.node ⟨2⟩).1 _ rfl,
    (rebind_replaces_consumer examples.Counting _ rfl examples.Both _ rfl 5 5 rfl () 0 rfl
      (DynamicHandler.ctor : DynamicHandler String) [Call.node ⟨1⟩]).2.2.2.2.1
        [Call.node ⟨2⟩, Call.flush, Call.way ⟨3⟩]⟩

/-- Claim C8, refuted as stated: a handler bound to `Counting` on which binding
`Failing` throws is still bound to `Counting`; the next node enters
`Counting::node`, it is not dropped. -/
theorem failed_bind_keeps_counting :
    ∃ W, HandlerWrapper.instantiate examples.Counting = some W ∧
      (DynamicHandler.ctor : DynamicHandler String).set examples.Counting 0 =
        some ⟨DynamicHandler.bound W 0, [Event.constructed "Counting"], none⟩ ∧
      (DynamicHandler.bound W 0).set examples.Failing () =
        some ⟨DynamicHandler.bound W 0, [], some "bad"⟩ ∧
      (DynamicHandler.bound W 0).apply (Call.node ⟨1⟩) =
        some ⟨DynamicHandler.bound W 1,
          [Event.entered "Counting" (Member.named Category.node) (Arg.node ⟨1⟩)], none⟩ ∧
      (DynamicHandler.bound W 0).apply (Call.node ⟨1⟩) ≠
        (DynamicHandler.ctor : DynamicHandler String).apply (Call.node ⟨1⟩) := by
  refine ⟨_, rfl, rfl, rfl, rfl, ?_⟩
  intro h
  have h2 := congrArg (fun x => x.map fun r => r.trace) h
  exact absurd h2 (by decide)

/-- Claim C8 (amended): when the constructor of `T` throws `e` inside
`set<T>(args...)`, the call throws exactly `e`, no consumer is constructed or
destroyed, and the handler is left as it was before the call, so that every
later sequence of calls has the outcome it would have had without the call; in
particular, on a handler that was never bound every later call still does
nothing. -/
theorem failed_bind_keeps_binding (T : THandler α σ ε) (W : HandlerWrapper σ ε)
    (hW : HandlerWrapper.instantiate T = some W) (args : α) (e : ε)
    (hk : T.ctor args = Except.error e) (d : DynamicHandler ε) :
    d.set T args = some ⟨d, [], some e⟩ ∧
      (∀ ks : List Call, (d.set T args).bind (fun x => x.after.feed ks) = d.feed ks) ∧
      ((DynamicHandler.ctor : DynamicHandler ε).set T args =
          some ⟨DynamicHandler.ctor, [], some e⟩ ∧
        ∀ k : Call, (DynamicHandler.ctor : DynamicHandler ε).apply k =
          some ⟨DynamicHandler.ctor, [], none⟩) := by
  refine ⟨DynamicHandler.set_error d hW hk, ?_, DynamicHandler.set_error _ hW hk,
    DynamicHandler.apply_ctor⟩
  intro ks
  rw [DynamicHandler.set_error d hW hk]
  rfl

/-- Claim C8 (amended), on `Failing` bound over a `Counting` holding 4. -/
theorem failed_bind_keeps_binding_witness :
    ∃ W, HandlerWrapper.instantiate examples.Counting = some W ∧
      (DynamicHandler.bound W 4).set examples.Failing () =
        some ⟨DynamicHandler.bound W 4, [], some "bad"⟩ :=
  ⟨_, rfl, (failed_bind_keeps_binding examples.Failing _ rfl () "bad" rfl _).1⟩

/-- Claim C9: on a bound handler every call is defined, and what it throws is
what the member it resolved to threw: the named member when the class has one
taking the payload, else `operator()`; for `flush()` the named `flush`, else
nothing runs and nothing is thrown.  The state the member left is kept. -/
theorem dispatch_throws_what_member_throws (T : THandler α σ ε) (W : HandlerWrapper σ ε)
    (hW : HandlerWrapper.instantiate T = some W) (h : σ) :
    (∀ (c : Category) (o : c.type), ∃ body : σ → c.type → σ × Option ε,
      ((T.named c).bind (fun m => m.withArg c) = some body ∨
        ((T.named c).bind (fun m => m.withArg c) = none ∧ T.call c = some body)) ∧
      ∃ r, (DynamicHandler.bound W h).apply (c.call o) = some r ∧
        r.thrown = (body h o).2 ∧ r.after = DynamicHandler.bound W (body h o).1) ∧
    ((∃ body : σ → σ × Option ε, T.flush.bind Method.noArg = some body ∧
        ∃ r, (DynamicHandler.bound W h).apply Call.flush = some r ∧
          r.thrown = (body h).2 ∧ r.after = DynamicHandler.bound W (body h).1) ∨
      (T.flush.bind Method.noArg = none ∧
        (DynamicHandler.bound W h).apply Call.flush =
          some ⟨DynamicHandler.bound W h, [], none⟩)) := by
  constructor
  · intro c o
    cases hn : (T.named c).bind (fun m => m.withArg c) with
    | some f =>
      exact ⟨f, Or.inl rfl, _, DynamicHandler.apply_named hW hn h o, rfl, rfl⟩
    | none =>
      cases hc : T.call c with
      | some g =>
        exact ⟨g, Or.inr ⟨rfl, rfl⟩, _, DynamicHandler.apply_call hW hn hc h o, rfl, rfl⟩
      | none =>
        have h1 := HandlerWrapper.instantiate_eq_none (HANDLER_DISPATCH1_none hn hc)
        rw [hW] at h1
        cases h1
  · cases hn : T.flush.bind Method.noArg with
    | some f => exact Or.inl ⟨f, rfl, _, DynamicHandler.flush_named hW hn h, rfl, rfl⟩
    | none => exact Or.inr ⟨rfl, DynamicHandler.flush_default hW hn h⟩

/-- Claim C9, on `Throwing`, whose `node` counts and throws `"boom"`. -/
theorem dispatch_throws_what_member_throws_witness :
    ∃ W, HandlerWrapper.instantiate examples.Throwing = some W ∧
      ∃ body : Nat → Node → Nat × Option String,
        (examples.Throwing.named Category.node).bind (fun m => m.withArg Category.node) =
          some body ∧
        (body 0 ⟨1⟩).2 = some "boom" ∧
        ∃ r, (DynamicHandler.bound W 0).apply (Call.node ⟨1⟩) = some r ∧
          r.thrown = some "boom" ∧ r.after = DynamicHandler.bound W 1 := by
  refine ⟨_, rfl, ?_⟩
  obtain ⟨body, hb, r, hr, hth, haf⟩ :=
    (dispatch_throws_what_member_throws examples.Throwing _ rfl 0).1 Category.node ⟨1⟩
  rcases hb with hb | ⟨hb, _⟩
  · have hb2 : (examples.Throwing.named Category.node).bind (fun m => m.withArg Category.node) =
        some (fun s _ => (s + 1, some "boom")) := rfl
    rw [hb2] at hb
    cases hb
    exact ⟨_, rfl, rfl, r, hr, hth, haf⟩
  · have hb2 : (examples.Throwing.named Category.node).bind (fun m => m.withArg Category.node) =
        some (fun s _ => (s + 1, some "boom")) := rfl
    rw [hb2] at hb
    cases hb

/-- Claim C10, refuted as stated: the class `MismatchedOnly`, whose `node`
takes a `Way` and which has no `operator()`, cannot be bound; a node sent to it
is not a no-op, there is no such handler. -/
theorem mismatched_only_is_rejected :
    ¬ ∃ r, (DynamicHandler.ctor : DynamicHandler String).set examples.MismatchedOnly () =
      some r := by
  rintro ⟨r, h1⟩
  have h0 : (DynamicHandler.ctor : DynamicHandler String).set examples.MismatchedOnly () =
      none := rfl
  rw [h0] at h1
  cases h1

/-- Claim C10 (amended): a member named after category `c` that cannot be
called with `c`'s payload counts as absent.  If the class has an `operator()`
overload for the payload, the call for `c` enters that overload exactly once;
if it has none, the class cannot be bound. -/
theorem mismatched_named_member (T : THandler α σ ε) (c : Category) (m : Method σ ε)
    (hn : T.named c = some m) (hm : m.withArg c = none) :
    (∀ g : σ → c.type → σ × Option ε, T.call c = some g →
      ∀ W : HandlerWrapper σ ε, HandlerWrapper.instantiate T = some W →
      ∀ (d : DynamicHandler ε) (args : α) (h : σ), T.ctor args = Except.ok h → ∀ o : c.type,
        d.set T args = some ⟨DynamicHandler.bound W h,
            Event.constructed T.name :: impl_ptr.reset d.m_impl, none⟩ ∧
          (DynamicHandler.bound W h).apply (c.call o) =
            some ⟨DynamicHandler.bound W (g h o).1,
              [Event.entered T.name Member.call (c.arg o)], (g h o).2⟩) ∧
    (T.call c = none → ∀ (d : DynamicHandler ε) (args : α), d.set T args = none) := by
  have hb : (T.named c).bind (fun m => m.withArg c) = none := by simp [hn, hm]
  constructor
  · intro g hc W hW d args h hk o
    exact ⟨DynamicHandler.set_ok d hW hk, DynamicHandler.apply_call hW hb hc h o⟩
  · intro hc d args
    exact DynamicHandler.set_none d
      (HandlerWrapper.instantiate_eq_none (HANDLER_DISPATCH1_none hb hc)) args

/-- Claim C10 (amended), on `Mismatched` (callable) and `MismatchedOnly` (not). -/
theorem mismatched_named_member_witness :
    (∃ W, HandlerWrapper.instantiate examples.Mismatched = some W ∧
      (DynamicHandler.bound W 0).apply (Call.node ⟨8⟩) =
        some ⟨DynamicHandler.bound W 100,
          [Event.entered "Mismatched" Member.call (Arg.node ⟨8⟩)], none⟩) ∧
    (DynamicHandler.ctor : DynamicHandler String).set examples.MismatchedOnly () = none :=
  ⟨⟨_, rfl, ((mismatched_named_member examples.Mismatched Category.node _ rfl rfl).1 _ rfl
      _ rfl DynamicHandler.ctor () 0 rfl ⟨8⟩).2⟩,
    (mismatched_named_member examples.MismatchedOnly Category.node _ rfl rfl).2 rfl
      DynamicHandler.ctor ()⟩

end binding

/-! ## The handler as a state machine -/

section machine

variable {α σ ε : Type}

/-- Claim C11: after the constructor and any sequence of `set` calls (with
constructors that complete or throw) and dispatch calls that compiles, the
whole sequence is defined, `m_impl` owns a wrapper (the base wrapper or the
wrapper of one consumer), never nothing, and every one of the six calls is
defined on the handler reached. -/
theorem handler_always_owns_a_wrapper (ops : List (Op ε))
    (hops : ∀ op ∈ ops, op.compiles = true) :
    ∃ p, (DynamicHandler.ctor : DynamicHandler ε).perform ops = some p ∧
      (∃ w, p.handler.m_impl = some w) ∧
      ∀ k : Call, ∃ r, p.handler.apply k = some r := by
  obtain ⟨p, hp, w, hw⟩ := DynamicHandler.perform_defined ops HandlerWrapperBase.base hops
  refine ⟨p, hp, ⟨w, hw⟩, ?_⟩
  intro k
  have hd : p.handler = ⟨some w⟩ := by
    cases hh : p.handler with
    | mk m =>
      rw [hh] at hw
      simp at hw
      rw [hw]
  obtain ⟨r, hr, _⟩ := DynamicHandler.apply_defined w k
  exact ⟨r, by rw [hd]; exact hr⟩

/-- Claim C11, on a caller that binds `Counting`, sends a node, fails to bind
`Failing`, flushes, binds `Throwing` and sends it a node, which throws. -/
theorem handler_always_owns_a_wrapper_witness :
    ∃ p, (DynamicHandler.ctor : DynamicHandler String).perform
        [Op.set examples.Counting 0, Op.call (Call.node ⟨1⟩), Op.set examples.Failing (),
          Op.call Call.flush, Op.set examples.Throwing (), Op.call (Call.node ⟨2⟩)] = some p ∧
      (∃ w, p.handler.m_impl = some w) ∧
      ∀ k : Call, ∃ r, p.handler.apply k = some r :=
  handler_always_owns_a_wrapper _ (by
    intro op hop
    simp only [List.mem_cons, List.mem_singleton, List.not_mem_nil, or_false] at hop
    rcases hop with h | h | h | h | h | h <;> subst h <;> rfl)

/-- Claim C12: a dispatch call never changes what the handler is bound to.  On
the handler as constructed every call leaves it as constructed.  On a handler
bound to a consumer of class `T` every call, whether it returns or throws,
leaves it bound to the same wrapper class (the same six resolved overriders)
around the same consumer object; the consumer's state is what the overrider
left, only code of `T` ran, and the state is unchanged when none ran.  The
same holds after any sequence of calls. -/
theorem dispatch_keeps_binding :
    (∀ k : Call, (DynamicHandler.ctor : DynamicHandler ε).apply k =
      some ⟨DynamicHandler.ctor, [], none⟩) ∧
    (∀ (τ : Type) (W : HandlerWrapper τ ε) (h : τ),
      (∀ (c : Category) (o : c.type), (DynamicHandler.bound W h).apply (c.call o) =
        some ⟨DynamicHandler.bound W (W.method c h o).after, (W.method c h o).trace,
          (W.method c h o).thrown⟩) ∧
      (DynamicHandler.bound W h).apply Call.flush =
        some ⟨DynamicHandler.bound W (W.flush h).after, (W.flush h).trace,
          (W.flush h).thrown⟩) ∧
    (∀ (T : THandler α σ ε) (W : HandlerWrapper σ ε), HandlerWrapper.instantiate T = some W →
      ∀ h : σ,
        (∀ k : Call, ∃ h2 tr th,
          (DynamicHandler.bound W h).apply k = some ⟨DynamicHandler.bound W h2, tr, th⟩ ∧
          (∀ e ∈ tr, ∃ m a, e = Event.entered T.name m a) ∧ (tr = [] → h2 = h)) ∧
        (∀ ks : List Call, ∃ h2 tr th,
          (DynamicHandler.bound W h).feed ks = some ⟨DynamicHandler.bound W h2, tr, th⟩)) := by
  refine ⟨DynamicHandler.apply_ctor, ?_, ?_⟩
  · intro τ W h
    exact ⟨fun c o => DynamicHandler.apply_bound W h c o, DynamicHandler.flush_bound W h⟩
  · intro T W hW h
    constructor
    · intro k
      obtain ⟨hk, hnil⟩ := DynamicHandler.apply_bound_frame hW h k
      obtain ⟨h3, tr3, th3, hk3, htr3⟩ := DynamicHandler.apply_bound_shape hW h k
      refine ⟨(T.effect h k).1, T.delivered [k], (T.effect h k).2, hk, ?_,
        fun he => by rw [hnil he]⟩
      rw [hk] at hk3
      have ht : T.delivered [k] = tr3 := by
        have := congrArg (fun x => x.map fun r => r.trace) hk3
        simpa using this
      rw [ht]
      exact htr3
    · intro ks
      obtain ⟨h2, tr, th, hf, _⟩ := DynamicHandler.feed_bound_shape hW ks h
      exact ⟨h2, tr, th, hf⟩

/-- Claim C12, on `Throwing`: the node call throws and the handler is still
bound to the same `Throwing` object, which has counted the node. -/
theorem dispatch_keeps_binding_witness :
    ∃ W, HandlerWrapper.instantiate examples.Throwing = some W ∧
      (DynamicHandler.bound W 0).apply (Call.node ⟨1⟩) =
        some ⟨DynamicHandler.bound W 1,
          [Event.entered "Throwing" (Member.named Category.node) (Arg.node ⟨1⟩)],
          some "boom"⟩ ∧
      ∃ h2 tr th, (DynamicHandler.bound W 0).apply Call.flush =
          some ⟨DynamicHandler.bound W h2, tr, th⟩ ∧
        (∀ e ∈ tr, ∃ m a, e = Event.entered "Throwing" m a) ∧ (tr = [] → h2 = 0) :=
  ⟨_, rfl, ((dispatch_keeps_binding (α := Unit) (σ := Nat)).2.1 Nat _ 0).1 Category.node ⟨1⟩,
    ((dispatch_keeps_binding).2.2 examples.Throwing _ rfl 0).1 Call.flush⟩

/-- Claim C13, refuted as stated: binding `Both` on a handler that owns a
`Counting` object constructs the `Both` object first; after that first event
of the trace the `Counting` object and the fully constructed `Both` object are
both alive. -/
theorem rebind_overlaps :
    ∃ W1 W2, HandlerWrapper.instantiate examples.Counting = some W1 ∧
      HandlerWrapper.instantiate examples.Both = some W2 ∧
      (DynamicHandler.bound W1 0).set examples.Both () =
        some ⟨DynamicHandler.bound W2 0,
          [Event.constructed "Both", Event.destroyed "Counting"], none⟩ ∧
      "Counting" ∈ live ["Counting"]
        ([Event.constructed "Both", Event.destroyed "Counting"].take 1) ∧
      "Both" ∈ live ["Counting"]
        ([Event.constructed "Both", Event.destroyed "Counting"].take 1) :=
  ⟨_, _, rfl, rfl, rfl, by decide, by decide⟩

/-- Claim C13 (amended): `set<T2>` on a handler that owns a `T1` object has
the trace "`T2` constructed, `T1` destroyed".  Before it the `T1` object alone
is alive; after its first event the `T1` object and the fully constructed `T2`
object are both alive; after its second and last event the `T2` object alone
is alive.  The `T1` object is destroyed once, as part of the assignment that
installs the new wrapper. -/
theorem rebind_constructs_then_destroys {α1 σ1 α2 σ2 : Type} (T1 : THandler α1 σ1 ε)
    (W1 : HandlerWrapper σ1 ε) (hW1 : HandlerWrapper.instantiate T1 = some W1)
    (T2 : THandler α2 σ2 ε) (W2 : HandlerWrapper σ2 ε)
    (hW2 : HandlerWrapper.instantiate T2 = some W2)
    (s1 : σ1) (a2 : α2) (h2 : σ2) (hk2 : T2.ctor a2 = Except.ok h2) :
    (DynamicHandler.bound W1 s1).set T2 a2 =
        some ⟨DynamicHandler.bound W2 h2,
          [Event.constructed T2.name, Event.destroyed T1.name], none⟩ ∧
      live [T1.name] ([Event.constructed T2.name, Event.destroyed T1.name].take 0) =
        [T1.name] ∧
      live [T1.name] ([Event.constructed T2.name, Event.destroyed T1.name].take 1) =
        [T2.name, T1.name] ∧
      live [T1.name] [Event.constructed T2.name, Event.destroyed T1.name] = [T2.name] := by
  refine ⟨?_, rfl, rfl, ?_⟩
  · rw [DynamicHandler.set_ok _ hW2 hk2]
    simp [DynamicHandler.bound, impl_ptr.reset, HandlerWrapperBase.destroy,
      HandlerWrapper.instantiate_cls hW1]
  · by_cases hname : T2.name = T1.name
    · simp [live, Event.update, hname]
    · simp [live, Event.update, List.erase_cons, hname]

/-- Claim C13 (amended), on `Counting` replaced by `Both`. -/
theorem rebind_constructs_then_destroys_witness :
    ∃ W1 W2, HandlerWrapper.instantiate examples.Counting = some W1 ∧
      HandlerWrapper.instantiate examples.Both = some W2 ∧
      (DynamicHandler.bound W1 3).set examples.Both () =
        some ⟨DynamicHandler.bound W2 0,
          [Event.constructed "Both", Event.destroyed "Counting"], none⟩ ∧
      live ["Counting"] [Event.constructed "Both", Event.destroyed "Counting"] = ["Both"] :=
  ⟨_, _, rfl, rfl,
    (rebind_constructs_then_destroys examples.Counting _ rfl examples.Both _ rfl 3 () 0 rfl).1,
    (rebind_constructs_then_destroys examples.Counting _ rfl examples.Both _ rfl 3 () 0
      rfl).2.2.2⟩

end machine

/-! ## Call sequences and failed binds -/

section sequences

variable {α σ ε : Type}

/-- Claim C14, refuted as stated: the class `Visitor` is callable with no
argument, so in the specification's sense it handles `flush`; a node, a flush
and a way sent to it give two invocations (the node and the way), while the
sequence restricted to the categories it handles stands for three. -/
theorem visitor_flush_is_filtered :
    ∃ W, HandlerWrapper.instantiate examples.Visitor = some W ∧
      (DynamicHandler.bound W []).perform
          ([Call.node ⟨1⟩, Call.flush, Call.way ⟨2⟩].map Op.call) =
        some ⟨DynamicHandler.bound W [1, 2],
          [Event.entered "Visitor" Member.call (Arg.node ⟨1⟩),
            Event.entered "Visitor" Member.call (Arg.way ⟨2⟩)], []⟩ ∧
      examples.Visitor.restricted [Call.node ⟨1⟩, Call.flush, Call.way ⟨2⟩] =
        [Event.entered "Visitor" Member.call (Arg.node ⟨1⟩),
          Event.entered "Visitor" Member.call Arg.none,
          Event.entered "Visitor" Member.call (Arg.way ⟨2⟩)] ∧
      [Event.entered "Visitor" Member.call (Arg.node ⟨1⟩),
          Event.entered "Visitor" Member.call (Arg.way ⟨2⟩)] ≠
        examples.Visitor.restricted [Call.node ⟨1⟩, Call.flush, Call.way ⟨2⟩] :=
  ⟨_, rfl, rfl, by decide, by decide⟩

/-- Claim C14 (amended): a consumer that can be bound handles all five payload
categories, and on a handler bound to it a sequence of calls is exactly the
direct calling of its members, one after the other: every payload call goes to
the member it resolves to, `flush()` goes to the named `flush` and is dropped
when there is none (an `operator()` without argument is never called).  This
holds call by call (state, invocation and exception belong to the outcome of
the call itself), for a caller that makes every call, and for a caller that
stops at the first exception (all of it when nothing is thrown, an initial
part otherwise).  Unless the consumer handles `flush` through `operator()`
alone, what is delivered is the specification's restricted sequence.
Performing `ks1 ++ ks2` is performing `ks1` and then `ks2`. -/
theorem calls_forwarded_in_order (T : THandler α σ ε) (W : HandlerWrapper σ ε)
    (hW : HandlerWrapper.instantiate T = some W) (s : σ) :
    (∀ c : Category, T.handlesCategory c = true) ∧
    (∀ k : Call, (DynamicHandler.bound W s).apply k =
      some ⟨DynamicHandler.bound W (T.effect s k).1, T.delivered [k], (T.effect s k).2⟩) ∧
    (∀ ks : List Call, (DynamicHandler.bound W s).perform (ks.map Op.call) =
      some ⟨DynamicHandler.bound W (T.stateAfter s ks), T.delivered ks, T.failures s ks⟩) ∧
    (∀ ks : List Call, T.failures s ks = [] →
      (DynamicHandler.bound W s).feed ks =
        some ⟨DynamicHandler.bound W (T.stateAfter s ks), T.delivered ks, none⟩) ∧
    (∀ ks : List Call, ∃ r, (DynamicHandler.bound W s).feed ks = some r ∧
      r.trace <+: T.delivered ks) ∧
    ((T.flush.bind Method.noArg).isSome = true ∨ T.call_void = none →
      ∀ ks : List Call, T.delivered ks = T.restricted ks) ∧
    (∀ ks1 ks2 : List Call,
      T.delivered (ks1 ++ ks2) = T.delivered ks1 ++ T.delivered ks2 ∧
      T.stateAfter s (ks1 ++ ks2) = T.stateAfter (T.stateAfter s ks1) ks2 ∧
      T.failures s (ks1 ++ ks2) = T.failures s ks1 ++ T.failures (T.stateAfter s ks1) ks2 ∧
      (DynamicHandler.bound W s).perform ((ks1 ++ ks2).map Op.call) =
        ((DynamicHandler.bound W s).perform (ks1.map Op.call)).bind (fun p =>
          (p.handler.perform (ks2.map Op.call)).map fun q =>
            ⟨q.handler, p.trace ++ q.trace, p.caught ++ q.caught⟩) ∧
      (DynamicHandler.bound W s).feed (ks1 ++ ks2) =
        ((DynamicHandler.bound W s).feed ks1).bind (fun r1 =>
          match r1.thrown with
          | some e => some ⟨r1.after, r1.trace, some e⟩
          | none =>
            (r1.after.feed ks2).map fun r2 =>
              ⟨r2.after, r1.trace ++ r2.trace, r2.thrown⟩)) := by
  refine ⟨?_, fun k => (DynamicHandler.apply_bound_frame hW s k).1,
    fun ks => DynamicHandler.perform_calls_bound hW ks s,
    fun ks hnone => DynamicHandler.feed_calls_bound hW ks s hnone,
    fun ks => DynamicHandler.feed_calls_prefix hW ks s, ?_, ?_⟩
  · intro c
    cases hn : (T.named c).bind (fun m => m.withArg c) with
    | some f => simp [THandler.handlesCategory, hn]
    | none =>
      cases hc : T.call c with
      | some g => simp [THandler.handlesCategory, hn, hc]
      | none =>
        have h1 := HandlerWrapper.instantiate_eq_none (HANDLER_DISPATCH1_none hn hc)
        rw [hW] at h1
        cases h1
  · intro hfl ks
    have hsame : T.reaches = T.handles := by
      funext k
      cases k with
      | flush =>
        rcases hfl with hf | hv
        · simp [THandler.reaches, THandler.handles, hf]
        · simp [THandler.reaches, THandler.handles, hv]
      | _ => rfl
    simp [THandler.delivered, THandler.restricted, hsame]
  · intro ks1 ks2
    refine ⟨THandler.delivered_append T ks1 ks2, THandler.stateAfter_append T s ks1 ks2,
      THandler.failures_append T s ks1 ks2, ?_, DynamicHandler.feed_append _ ks1 ks2⟩
    rw [List.map_append]
    exact DynamicHandler.perform_append _ _ _

/-- Claim C14 (amended), on `Mismatched`, which handles the five payload
categories through `operator()` (adding 100) and has no `flush` of either
form: a flush between a way and a node leaves no invocation, the way and the
node are entered in that order, and that is the specification's restricted
sequence. -/
theorem calls_forwarded_in_order_witness :
    ∃ W, HandlerWrapper.instantiate examples.Mismatched = some W ∧
      (DynamicHandler.bound W 0).perform
          ([Call.way ⟨2⟩, Call.flush, Call.node ⟨1⟩].map Op.call) =
        some ⟨DynamicHandler.bound W 200,
          [Event.entered "Mismatched" Member.call (Arg.way ⟨2⟩),
            Event.entered "Mismatched" Member.call (Arg.node ⟨1⟩)], []⟩ ∧
      (DynamicHandler.bound W 0).feed [Call.way ⟨2⟩, Call.flush, Call.node ⟨1⟩] =
        some ⟨DynamicHandler.bound W 200,
          [Event.entered "Mismatched" Member.call (Arg.way ⟨2⟩),
            Event.entered "Mismatched" Member.call (Arg.node ⟨1⟩)], none⟩ ∧
      examples.Mismatched.delivered [Call.way ⟨2⟩, Call.flush, Call.node ⟨1⟩] =
        examples.Mismatched.restricted [Call.way ⟨2⟩, Call.flush, Call.node ⟨1⟩] :=
  ⟨_, rfl,
    (calls_forwarded_in_order examples.Mismatched _ rfl 0).2.2.1
      [Call.way ⟨2⟩, Call.flush, Call.node ⟨1⟩],
    (calls_forwarded_in_order examples.Mismatched _ rfl 0).2.2.2.1
      [Call.way ⟨2⟩, Call.flush, Call.node ⟨1⟩] rfl,
    (calls_forwarded_in_order examples.Mismatched _ rfl 0).2.2.2.2.2.1 (Or.inr rfl)
      [Call.way ⟨2⟩, Call.flush, Call.node ⟨1⟩]⟩

/-- Claim C15: when the constructor of `T` throws `e` inside `set<T>(args...)`,
the call throws `e` and the handler is exactly what it was: it owns the
wrapper it owned, no consumer was constructed or destroyed (the same objects
are alive), and every later sequence of calls or operations has the outcome it
would have had without the failed `set`, which only adds `e` to what the
caller caught. -/
theorem failed_bind_is_atomic (T : THandler α σ ε) (W : HandlerWrapper σ ε)
    (hW : HandlerWrapper.instantiate T = some W) (args : α) (e : ε)
    (hk : T.ctor args = Except.error e) (d : DynamicHandler ε) :
    d.set T args = some ⟨d, [], some e⟩ ∧
      (∀ r, d.set T args = some r →
        r.after = d ∧ r.after.m_impl = d.m_impl ∧ r.thrown = some e ∧
        (∀ cls, Event.destroyed cls ∉ r.trace ∧ Event.constructed cls ∉ r.trace) ∧
        (∀ alive, live alive r.trace = alive) ∧
        (∀ k : Call, r.after.apply k = d.apply k) ∧
        (∀ ks : List Call, r.after.feed ks = d.feed ks)) ∧
      (∀ ops : List (Op ε), d.perform (Op.set T args :: ops) =
        (d.perform ops).map fun p => ⟨p.handler, p.trace, e :: p.caught⟩) := by
  have hset := DynamicHandler.set_error d hW hk
  refine ⟨hset, ?_, ?_⟩
  · intro r hr
    rw [hset] at hr
    cases hr
    exact ⟨rfl, rfl, rfl, fun cls => by simp, fun _ => rfl, fun _ => rfl, fun _ => rfl⟩
  · intro ops
    cases hp : d.perform ops <;>
      simp [DynamicHandler.perform, DynamicHandler.step, hset, hp, caughtOf]

/-- Claim C15, on `Failing` bound over a `Counting` object holding 4: the
handler still owns that object, and a node sent afterwards is counted by it
exactly as without the failed `set`. -/
theorem failed_bind_is_atomic_witness :
    ∃ W, HandlerWrapper.instantiate examples.Counting = some W ∧
      (DynamicHandler.bound W 4).set examples.Failing () =
        some ⟨DynamicHandler.bound W 4, [], some "bad"⟩ ∧
      (DynamicHandler.bound W 4).perform
          [Op.set examples.Failing (), Op.call (Call.node ⟨1⟩)] =
        ((DynamicHandler.bound W 4).perform [Op.call (Call.node ⟨1⟩)]).map
          (fun p => ⟨p.handler, p.trace, "bad" :: p.caught⟩) :=
  ⟨_, rfl, (failed_bind_is_atomic examples.Failing _ rfl () "bad" rfl _).1,
    (failed_bind_is_atomic examples.Failing _ rfl () "bad" rfl _).2.2 _⟩

end sequences

end handler

end osmium
